import Mathlib

/-!
Verification of the messaging-app core (chat store, message service,
connection hub, connection session) against its specification.

The Go sources are shallowly embedded:
* maps (`map[string]*domain.Chat`, `map[string][]*domain.Message`,
  `map[string]*Client`) become association lists whose entry order models
  the (fixed but arbitrary) iteration order of the Go map;
* `time.Time` becomes `Nat` (0 playing the role of the zero `time.Time`,
  checked by `IsZero` in the source);
* `uuid.New().String()` becomes an explicit fresh-identifier argument;
* a Go pointer to a `Client` is identified by a `cid : Nat` field
  (pointer identity), since the hub compares clients by pointer;
* fallible Go functions returning `(T, error)` become `Except`/`Option`.
-/

namespace MessagingApp

/-- MessageStatus from domain/models: sent, delivered, read. -/
inductive MessageStatus
  | sent
  | delivered
  | read
deriving DecidableEq, Repr

/-- Application errors from domain/errors.go (plus ErrCannotMessageSelf,
which is referenced by services/message_service.go). -/
inductive AppError
  | userNotFound
  | chatNotFound
  | messageNotFound
  | usernameExists
  | invalidUser
  | emptyMessage
  | cannotMessageSelf
deriving DecidableEq, Repr

/-- Chat from domain/models: a 1:1 conversation between two users. -/
structure Chat where
  id : String
  participant1 : String
  participant2 : String
  createdAt : Nat
  updatedAt : Nat
deriving DecidableEq, Repr

/-- Message from domain/models. -/
structure Message where
  id : String
  chatId : String
  senderId : String
  content : String
  status : MessageStatus
  timestamp : Nat
  idempotencyKey : String
deriving DecidableEq, Repr

/-- MemoryChatRepository: `chats` models `map[string]*domain.Chat` (keyed by
`Chat.id`), `messages` models `map[string][]*domain.Message` (chatID to
messages). List order models Go map iteration order. -/
structure MemoryChatRepository where
  chats : List Chat
  messages : List (String × List Message)
deriving DecidableEq, Repr

/-- Empty repository, as built by NewMemoryChatRepository. -/
def MemoryChatRepository.empty : MemoryChatRepository :=
  { chats := [], messages := [] }

/-- Read of `r.messages[chatID]` together with the `exists` flag:
`none` models a missing key. -/
def getEntry? (ms : List (String × List Message)) (k : String) :
    Option (List Message) :=
  (ms.find? (fun p => p.1 == k)).map (fun p => p.2)

/-- Write `r.messages[k] = v` on the association-list model of the map:
replace the (unique) entry holding the key when it is present, append a new
entry otherwise. -/
def setEntry (ms : List (String × List Message)) (k : String)
    (v : List Message) : List (String × List Message) :=
  match ms with
  | [] => [(k, v)]
  | p :: rest => if p.1 == k then (k, v) :: rest else p :: setEntry rest k v

/-- Write `r.chats[c.id] = c` on the association-list model of the map. -/
def setChat (chats : List Chat) (c : Chat) : List Chat :=
  match chats with
  | [] => [c]
  | c0 :: rest => if c0.id == c.id then c :: rest else c0 :: setChat rest c

/-- The participant test used by FindByParticipants (both argument orders). -/
def chatMatches (c : Chat) (u1 u2 : String) : Bool :=
  (c.participant1 == u1 && c.participant2 == u2) ||
  (c.participant1 == u2 && c.participant2 == u1)

/-- MemoryChatRepository.FindByParticipants: first chat in iteration order
whose unordered participant pair is {u1, u2}; `none` models ErrChatNotFound. -/
def MemoryChatRepository.findByParticipants (r : MemoryChatRepository)
    (u1 u2 : String) : Option Chat :=
  r.chats.find? (fun c => chatMatches c u1 u2)

/-- The header mutations of MemoryChatRepository.Create on the chat being
stored: assign a fresh uuid when the id is empty, fill CreatedAt when zero,
always advance UpdatedAt. -/
def storedChat (freshId : String) (now : Nat) (chat : Chat) : Chat :=
  let chat := if chat.id = "" then { chat with id := freshId } else chat
  let chat := if chat.createdAt = 0 then { chat with createdAt := now } else chat
  { chat with updatedAt := now }

/-- MemoryChatRepository.Create: stores the (normalized) chat and an empty
message list for it. Returns the stored chat (the caller's pointer is
mutated in Go, so the updated value is returned) and never fails. -/
def MemoryChatRepository.createChat (r : MemoryChatRepository)
    (freshId : String) (now : Nat) (chat : Chat) :
    Except AppError (Chat × MemoryChatRepository) :=
  let chat := storedChat freshId now chat
  .ok (chat, { chats := setChat r.chats chat,
               messages := setEntry r.messages chat.id [] })

/-- The header mutations of MemoryChatRepository.AddMessage on the message
being stored: assign a fresh uuid when the id is empty, fill the timestamp
when zero. -/
def storedMessage (freshId : String) (now : Nat) (m : Message) : Message :=
  let m := if m.id = "" then { m with id := freshId } else m
  if m.timestamp = 0 then { m with timestamp := now } else m

/-- The `chat.UpdatedAt = time.Now()` write of AddMessage, performed when
the chat exists: on the map model, advance UpdatedAt of the chat with the
given id (ids are map keys, hence unique). -/
def touchChats (chats : List Chat) (cid : String) (now : Nat) : List Chat :=
  chats.map (fun c => if c.id == cid then { c with updatedAt := now } else c)

/-- MemoryChatRepository.AddMessage: normalizes the message header, advances
UpdatedAt of the chat when it exists, and appends the message to
`r.messages[m.chatId]` (Go append on a possibly-nil slice). Returns the
stored message (the caller's pointer is mutated in Go) and never fails. -/
def MemoryChatRepository.addMessage (r : MemoryChatRepository)
    (freshId : String) (now : Nat) (m : Message) :
    Except AppError (Message × MemoryChatRepository) :=
  let m := storedMessage freshId now m
  let old := (getEntry? r.messages m.chatId).getD []
  .ok (m, { chats := touchChats r.chats m.chatId now,
            messages := setEntry r.messages m.chatId (old ++ [m]) })

/-- Set the status of the first message in a list with the given id;
`none` when no message matches. -/
def setStatusFirst (msgs : List Message) (mid : String)
    (st : MessageStatus) : Option (List Message) :=
  match msgs with
  | [] => none
  | m :: rest =>
    if m.id == mid then some ({ m with status := st } :: rest)
    else (setStatusFirst rest mid st).map (fun rest1 => m :: rest1)

/-- Walk the per-chat message lists in iteration order and set the status of
the first message whose id matches; `none` when no chat contains it. -/
def updateStatusInEntries (es : List (String × List Message)) (mid : String)
    (st : MessageStatus) : Option (List (String × List Message)) :=
  match es with
  | [] => none
  | (k, msgs) :: rest =>
    match setStatusFirst msgs mid st with
    | some msgs1 => some ((k, msgs1) :: rest)
    | none => (updateStatusInEntries rest mid st).map (fun rest1 => (k, msgs) :: rest1)

/-- MemoryChatRepository.UpdateMessageStatus: scans all chats' messages for
the id and overwrites its status unconditionally; ErrMessageNotFound when
no message has that id. -/
def MemoryChatRepository.updateMessageStatus (r : MemoryChatRepository)
    (mid : String) (st : MessageStatus) :
    Except AppError MemoryChatRepository :=
  match updateStatusInEntries r.messages mid st with
  | some es => .ok { chats := r.chats, messages := es }
  | none => .error .messageNotFound

/-- Find a message by id across all chats' message lists, in iteration
order (MemoryChatRepository.FindMessageByID). -/
def findInEntries (es : List (String × List Message)) (mid : String) :
    Option Message :=
  match es with
  | [] => none
  | (_, msgs) :: rest =>
    match msgs.find? (fun m => m.id == mid) with
    | some m => some m
    | none => findInEntries rest mid

/-- MemoryChatRepository.FindMessageByID. -/
def MemoryChatRepository.findMessageByID (r : MemoryChatRepository)
    (mid : String) : Option Message :=
  findInEntries r.messages mid

/-- The status currently recorded for a message id, if the message exists. -/
def MemoryChatRepository.statusOf (r : MemoryChatRepository)
    (mid : String) : Option MessageStatus :=
  (findInEntries r.messages mid).map (fun m => m.status)

/-- MemoryChatRepository.FindMessageByKey: ErrChatNotFound (here `none`)
when the chat has no message entry, else the first message in the chat with
the given idempotency key, `none` modelling ErrMessageNotFound. -/
def MemoryChatRepository.findMessageByKey (r : MemoryChatRepository)
    (chatId idempotencyKey : String) : Option Message :=
  match getEntry? r.messages chatId with
  | none => none
  | some msgs => msgs.find? (fun m => m.idempotencyKey == idempotencyKey)

/-- Two's-complement wrap-around of a 64-bit Go `int`: the value reduced
into [-9223372036854775808, 9223372036854775808). Every arithmetic
operation of the source on `int` wraps this way, and overflow is reachable:
`strconv.Atoi` returns the clamped maximum int on range error and the
handlers ignore that error, so page = 9223372036854775807 reaches the
repository. -/
def wrap64 (x : Int) : Int :=
  (x + 9223372036854775808) % 18446744073709551616 - 9223372036854775808

/-- calculatePaginationBounds, with Go `int` arithmetic modelled as 64-bit
wrap-around (`wrap64` on every subtraction, multiplication and addition;
comparisons and assignments do not wrap). -/
def calculatePaginationBounds (page pageSize total : Int) : Int × Int :=
  let page := if page < 1 then 1 else page
  let pageSize := if pageSize < 1 then 20 else pageSize
  let start := wrap64 (wrap64 (page - 1) * pageSize)
  let start := if start < 0 then 0 else start
  let start := if start > total then total else start
  let stop := wrap64 (start + pageSize)
  let stop := if stop > total then total else stop
  (start, stop)

/-- MemoryChatRepository.FindChatMessages: ErrChatNotFound (`none`) when the
chat has no message entry; otherwise the window `[start, stop)` of the
chat's messages in insertion order, together with the total count.
`result[i-start] = messages[i]` for `i` in `[start, stop)` is exactly
`(msgs.drop start).take (stop - start)`. -/
def MemoryChatRepository.findChatMessages (r : MemoryChatRepository)
    (chatId : String) (page pageSize : Int) :
    Option (List Message × Nat) :=
  match getEntry? r.messages chatId with
  | none => none
  | some msgs =>
    let total := msgs.length
    let bounds := calculatePaginationBounds page pageSize total
    if bounds.1 ≥ (total : Int) then some ([], total)
    else some ((msgs.drop bounds.1.toNat).take (bounds.2 - bounds.1).toNat, total)

/-- MessageService.SendMessage, lines 37–52: find the chat for the pair or
create one whose Participant1 is the sender (the Chat literal has zero id
and times; Create fills them). -/
def MessageService.findOrCreateChat (r : MemoryChatRepository)
    (freshChatId : String) (now : Nat) (senderId recipientId : String) :
    Except AppError (Chat × MemoryChatRepository) :=
  match r.findByParticipants senderId recipientId with
  | some chat => .ok (chat, r)
  | none =>
    r.createChat freshChatId now
      { id := "", participant1 := senderId, participant2 := recipientId,
        createdAt := 0, updatedAt := 0 }

/-- MessageService.SendMessage. The repository state is always returned so
that mutation-freedom of the failure paths is expressible. `freshChatId` and
`freshMsgId` stand for the uuids Create and AddMessage would draw. -/
def MessageService.sendMessage (r : MemoryChatRepository)
    (freshChatId freshMsgId : String) (now : Nat)
    (senderId recipientId content idempotencyKey : String) :
    MemoryChatRepository × Except AppError Message :=
  if senderId = "" ∨ recipientId = "" then (r, .error .invalidUser)
  else if senderId = recipientId then (r, .error .cannotMessageSelf)
  else if content = "" then (r, .error .emptyMessage)
  else
    match MessageService.findOrCreateChat r freshChatId now senderId recipientId with
    | .error e => (r, .error e)
    | .ok (chat, r1) =>
      let stored :=
        if idempotencyKey ≠ "" then r1.findMessageByKey chat.id idempotencyKey
        else none
      match stored with
      | some existingMsg => (r1, .ok existingMsg)
      | none =>
        let message : Message :=
          { id := "", chatId := chat.id, senderId := senderId,
            content := content, status := .sent, timestamp := now,
            idempotencyKey := idempotencyKey }
        match r1.addMessage freshMsgId now message with
        | .ok (m, r2) => (r2, .ok m)
        | .error e => (r1, .error e)

/-- Modelled from the spec: `MessageService.UpdateMessageStatus` is called
by the hub and the reader task (src/sockets/hub.go) but its body is not
among the provided sources; §4.2 of the spec defines it as a thin
passthrough to the Chat Store's status update. -/
def MessageService.updateMessageStatus (r : MemoryChatRepository)
    (mid : String) (st : MessageStatus) : Except AppError MemoryChatRepository :=
  r.updateMessageStatus mid st

/-- Client from sockets/hub.go. `cid` models the Go pointer identity (the
hub compares clients with pointer equality in the Unregister case);
`sendCap` and `sendQueue` model the buffered `Send` channel: a non-blocking
send succeeds exactly when the buffer is not full. -/
structure Client where
  cid : Nat
  userId : String
  sendCap : Nat
  sendQueue : List String
deriving DecidableEq, Repr

/-- ConnectionHub state: the `Clients` map (userID to client, association
list in iteration order) and the set of closed Send channels, recorded by
client identity so that "its outbound queue was closed" is expressible. -/
structure ConnectionHub where
  clients : List (String × Client)
  closedChans : List Nat
deriving DecidableEq, Repr

/-- Read of `h.Clients[uid]` with the `exists` flag. -/
def ConnectionHub.lookupClient (h : ConnectionHub) (uid : String) :
    Option Client :=
  (h.clients.find? (fun p => p.1 == uid)).map (fun p => p.2)

/-- Register branch of ConnectionHub.Run: an existing client for the same
user is evicted (Send closed, mapping deleted) before the new client is
stored. -/
def ConnectionHub.register (h : ConnectionHub) (c : Client) : ConnectionHub :=
  match h.lookupClient c.userId with
  | some existing =>
    { clients := (h.clients.filter (fun p => p.1 != c.userId)) ++ [(c.userId, c)],
      closedChans := existing.cid :: h.closedChans }
  | none =>
    { clients := h.clients ++ [(c.userId, c)], closedChans := h.closedChans }

/-- Unregister branch of ConnectionHub.Run: the mapping is removed and the
Send channel closed only when the map still holds that exact client
(pointer comparison, modelled by `cid`). -/
def ConnectionHub.unregister (h : ConnectionHub) (c : Client) : ConnectionHub :=
  match h.lookupClient c.userId with
  | some existing =>
    if existing.cid == c.cid then
      { clients := h.clients.filter (fun p => p.1 != c.userId),
        closedChans := c.cid :: h.closedChans }
    else h
  | none => h

/-- ConnectionHub.broadcastMessage: no-op when the recipient has no client;
otherwise a non-blocking enqueue of the marshalled message (modelled by its
id; `json.Marshal` of a Message value cannot fail and is modelled total).
On success the message status is updated to delivered through the service
(fire and forget: the error is ignored); on a full queue the client is
evicted and the store untouched. -/
def ConnectionHub.broadcastMessage (h : ConnectionHub)
    (r : MemoryChatRepository) (msg : Message) (recipientId : String) :
    ConnectionHub × MemoryChatRepository :=
  match h.lookupClient recipientId with
  | none => (h, r)
  | some client =>
    if client.sendQueue.length < client.sendCap then
      let client1 : Client := { client with sendQueue := client.sendQueue ++ [msg.id] }
      let h1 : ConnectionHub :=
        { h with clients := h.clients.map (fun p =>
            if p.1 == recipientId then (p.1, client1) else p) }
      match MessageService.updateMessageStatus r msg.id .delivered with
      | .ok r1 => (h1, r1)
      | .error _ => (h1, r)
    else
      ({ clients := h.clients.filter (fun p => p.1 != recipientId),
         closedChans := client.cid :: h.closedChans }, r)

/-- An inbound websocket frame after `json.Unmarshal` into
`struct { Type, MessageID string }`: either it failed to parse, or it
yielded a type discriminator and a message id (absent fields decode to ""). -/
inductive InboundFrame
  | malformed
  | frame (ftype : String) (messageId : String)
deriving DecidableEq, Repr

/-- Frame handling in Client.StartReader: a parsed frame whose type is
"mark_read" triggers a status update to read (result ignored); everything
else is ignored. The client is a parameter to record that the source never
consults it on this path. -/
def Client.handleInboundFrame (_c : Client) (r : MemoryChatRepository)
    (f : InboundFrame) : MemoryChatRepository :=
  match f with
  | .malformed => r
  | .frame ftype messageId =>
    if ftype = "mark_read" then
      match MessageService.updateMessageStatus r messageId .read with
      | .ok r1 => r1
      | .error _ => r
    else r

/-- Combined application state: hub plus chat store. -/
structure AppState where
  hub : ConnectionHub
  repo : MemoryChatRepository
deriving DecidableEq, Repr

/-- The operations of the program that touch message status or the hub:
the send-message handler (SendMessage followed, on success, by
BroadcastMessage to the recipient, app/handlers), client registration,
the guarded unregistration, and an inbound reader frame. -/
inductive AppOp
  | send (freshChatId freshMsgId : String) (now : Nat)
      (senderId recipientId content idempotencyKey : String)
  | register (c : Client)
  | unregister (c : Client)
  | inbound (c : Client) (f : InboundFrame)
deriving DecidableEq, Repr

/-- One program operation, as composed by the handlers in app/handlers and
the hub loop. -/
def AppState.step (s : AppState) : AppOp → AppState
  | .send fc fm now senderId recipientId content key =>
    match MessageService.sendMessage s.repo fc fm now senderId recipientId content key with
    | (r1, .ok m) =>
      let res := s.hub.broadcastMessage r1 m recipientId
      { hub := res.1, repo := res.2 }
    | (r1, .error _) => { hub := s.hub, repo := r1 }
  | .register c => { hub := s.hub.register c, repo := s.repo }
  | .unregister c => { hub := s.hub.unregister c, repo := s.repo }
  | .inbound c f => { hub := s.hub, repo := c.handleInboundFrame s.repo f }

/-- Run a list of operations in order. -/
def AppState.run (s : AppState) (ops : List AppOp) : AppState :=
  ops.foldl AppState.step s

/-- Arguments of one in-flight SendMessage call (one request-handling task). -/
structure SendThread where
  senderId : String
  recipientId : String
  content : String
  idempotencyKey : String
  freshChatId : String
  freshMsgId : String
  now : Nat
deriving DecidableEq, Repr

deriving instance DecidableEq for Except

/-- Control point of an in-flight SendMessage call. Each repository call in
SendMessage is one critical section of the repository mutex (each method
locks and unlocks internally), so between two control points the shared
state may be observed and mutated by other tasks. `start` performs the pure
validation plus the FindByParticipants read; `mkChat` the Create write;
`dedupe` the FindMessageByKey read; `insert` the AddMessage write. -/
inductive ThreadPC
  | start
  | mkChat
  | dedupe (chat : Chat)
  | insert (chat : Chat)
  | done (result : Except AppError Message)
deriving DecidableEq, Repr

/-- One atomic step of a SendMessage call against the shared repository. -/
def threadStep (t : SendThread) (pc : ThreadPC) (r : MemoryChatRepository) :
    ThreadPC × MemoryChatRepository :=
  match pc with
  | .start =>
    if t.senderId = "" ∨ t.recipientId = "" then (.done (.error .invalidUser), r)
    else if t.senderId = t.recipientId then (.done (.error .cannotMessageSelf), r)
    else if t.content = "" then (.done (.error .emptyMessage), r)
    else
      match r.findByParticipants t.senderId t.recipientId with
      | some chat => (.dedupe chat, r)
      | none => (.mkChat, r)
  | .mkChat =>
    match r.createChat t.freshChatId t.now
        { id := "", participant1 := t.senderId, participant2 := t.recipientId,
          createdAt := 0, updatedAt := 0 } with
    | .ok (chat, r1) => (.dedupe chat, r1)
    | .error e => (.done (.error e), r)
  | .dedupe chat =>
    let stored :=
      if t.idempotencyKey ≠ "" then r.findMessageByKey chat.id t.idempotencyKey
      else none
    match stored with
    | some existingMsg => (.done (.ok existingMsg), r)
    | none => (.insert chat, r)
  | .insert chat =>
    let message : Message :=
      { id := "", chatId := chat.id, senderId := t.senderId,
        content := t.content, status := .sent, timestamp := t.now,
        idempotencyKey := t.idempotencyKey }
    match r.addMessage t.freshMsgId t.now message with
    | .ok (m, r1) => (.done (.ok m), r1)
    | .error e => (.done (.error e), r)
  | .done res => (.done res, r)

/-- Interleaved execution of two SendMessage calls under a schedule:
`true` steps the first thread, `false` the second. -/
def runSched (t1 t2 : SendThread) :
    List Bool → ThreadPC × ThreadPC × MemoryChatRepository →
    ThreadPC × ThreadPC × MemoryChatRepository
  | [], st => st
  | b :: rest, (pc1, pc2, r) =>
    if b then
      let s1 := threadStep t1 pc1 r
      runSched t1 t2 rest (s1.1, pc2, s1.2)
    else
      let s2 := threadStep t2 pc2 r
      runSched t1 t2 rest (pc1, s2.1, s2.2)

/-! ### Association-list lemmas -/

theorem getEntry?_setEntry_self (ms : List (String × List Message))
    (k : String) (v : List Message) :
    getEntry? (setEntry ms k v) k = some v := by
  induction ms with
  | nil =>
    show getEntry? [(k, v)] k = some v
    unfold getEntry?
    rw [List.find?_cons_of_pos (p := fun (q : String × List Message) => q.1 == k) _ (by simp)]
    rfl
  | cons p rest ih =>
    show getEntry? (if p.1 == k then (k, v) :: rest else p :: setEntry rest k v) k = some v
    by_cases hp : p.1 == k
    · rw [if_pos hp]
      unfold getEntry?
      rw [List.find?_cons_of_pos (p := fun (q : String × List Message) => q.1 == k) _ (by simp)]
      rfl
    · rw [if_neg hp]
      unfold getEntry?
      rw [List.find?_cons_of_neg (p := fun (q : String × List Message) => q.1 == k) _ hp]
      exact ih

theorem getEntry?_setEntry_other (ms : List (String × List Message))
    (k k' : String) (v : List Message) (h : k' ≠ k) :
    getEntry? (setEntry ms k v) k' = getEntry? ms k' := by
  induction ms with
  | nil =>
    show getEntry? [(k, v)] k' = getEntry? [] k'
    unfold getEntry?
    rw [List.find?_cons_of_neg (p := fun (q : String × List Message) => q.1 == k') _ (by simpa using Ne.symm h)]
  | cons p rest ih =>
    show getEntry? (if p.1 == k then (k, v) :: rest else p :: setEntry rest k v) k' =
      getEntry? (p :: rest) k'
    by_cases hp : p.1 == k
    · rw [if_pos hp]
      have hpk : p.1 = k := eq_of_beq hp
      have hp' : ¬((fun (q : String × List Message) => q.1 == k') p) = true := by simp [hpk, Ne.symm h]
      unfold getEntry?
      rw [List.find?_cons_of_neg (p := fun (q : String × List Message) => q.1 == k') _ (by simpa using Ne.symm h),
        List.find?_cons_of_neg (p := fun (q : String × List Message) => q.1 == k') _ hp']
    · rw [if_neg hp]
      by_cases hp' : p.1 == k'
      · unfold getEntry?
        rw [List.find?_cons_of_pos (p := fun (q : String × List Message) => q.1 == k') _ hp',
          List.find?_cons_of_pos (p := fun (q : String × List Message) => q.1 == k') _ hp']
      · unfold getEntry?
        rw [List.find?_cons_of_neg (p := fun (q : String × List Message) => q.1 == k') _ hp',
          List.find?_cons_of_neg (p := fun (q : String × List Message) => q.1 == k') _ hp']
        exact ih

/-! ### Claim C7: pagination -/

/-- Modelled from the spec, for comparison with the source: §4.4 words the
window as "page < 1 is clamped to 1; pageSize < 1 defaults to 20; the
effective window is [ (page-1)*pageSize, min(total, that+pageSize) )", with
an empty result once the start index reaches the total. -/
def specPaginationWindow (msgs : List Message) (page pageSize : Int) :
    List Message × Nat :=
  let p := if page < 1 then 1 else page
  let ps := if pageSize < 1 then 20 else pageSize
  let start := (p - 1) * ps
  let stop := min (msgs.length : Int) (start + ps)
  ((msgs.drop start.toNat).take (stop - start).toNat, msgs.length)

/-- wrap64 is the identity exactly on the int64 range. -/
theorem wrap64_eq_self (x : Int) (h1 : -9223372036854775808 ≤ x)
    (h2 : x < 9223372036854775808) : wrap64 x = x := by
  unfold wrap64
  omega

/-- On inputs where neither machine computation (`(page-1)*pageSize`, then
`start+pageSize` after clamping) overflows int64, the bounds are the
mathematical clamped window. -/
theorem calculatePaginationBounds_eq (page pageSize total : Int)
    (htotal : 0 ≤ total)
    (hpage : page ≤ 9223372036854775807)
    (hnostart : ((if page < 1 then 1 else page) - 1) *
      (if pageSize < 1 then 20 else pageSize) ≤ 9223372036854775807)
    (hnostop : min total (((if page < 1 then 1 else page) - 1) *
        (if pageSize < 1 then 20 else pageSize)) +
      (if pageSize < 1 then 20 else pageSize) ≤ 9223372036854775807) :
    calculatePaginationBounds page pageSize total =
      (min total (((if page < 1 then 1 else page) - 1) *
          (if pageSize < 1 then 20 else pageSize)),
       min total (((if page < 1 then 1 else page) - 1) *
          (if pageSize < 1 then 20 else pageSize) +
          (if pageSize < 1 then 20 else pageSize))) := by
  have hp : (1 : Int) ≤ if page < 1 then 1 else page := by split <;> omega
  have hpm : (if page < 1 then 1 else page) ≤ 9223372036854775807 := by
    split <;> omega
  have hps : (1 : Int) ≤ if pageSize < 1 then 20 else pageSize := by
    split <;> omega
  have hstart : (0 : Int) ≤ ((if page < 1 then 1 else page) - 1) *
      (if pageSize < 1 then 20 else pageSize) :=
    mul_nonneg (by omega) (by omega)
  unfold calculatePaginationBounds
  simp only []
  rw [wrap64_eq_self ((if page < 1 then 1 else page) - 1) (by omega) (by omega)]
  rw [wrap64_eq_self (((if page < 1 then 1 else page) - 1) *
      (if pageSize < 1 then 20 else pageSize)) (by omega) (by omega)]
  generalize hX : ((if page < 1 then 1 else page) - 1) *
      (if pageSize < 1 then 20 else pageSize) = X at hstart hnostart hnostop ⊢
  generalize hPS : (if pageSize < 1 then (20 : Int) else pageSize) = PS
    at hps hnostop ⊢
  rw [if_neg (by omega : ¬ X < 0)]
  rw [show (if X > total then total else X) = min total X by split <;> omega]
  rw [wrap64_eq_self (min total X + PS) (by omega) (by omega)]
  rw [show (if min total X + PS > total then total else min total X + PS) =
    min total (X + PS) by split <;> omega]

/-- FindChatMessages on a present entry, written through the bounds. -/
theorem findChatMessages_entry_some (r : MemoryChatRepository)
    (chatId : String) (msgs : List Message) (page pageSize : Int)
    (h : getEntry? r.messages chatId = some msgs) :
    r.findChatMessages chatId page pageSize =
      (if (calculatePaginationBounds page pageSize msgs.length).1 ≥ (msgs.length : Int)
       then some ([], msgs.length)
       else some ((msgs.drop (calculatePaginationBounds page pageSize msgs.length).1.toNat).take
          ((calculatePaginationBounds page pageSize msgs.length).2 -
            (calculatePaginationBounds page pageSize msgs.length).1).toNat,
          msgs.length)) := by
  unfold MemoryChatRepository.findChatMessages
  rw [h]

/-- Claim C7, amended: FindChatMessages computes exactly the spec's
pagination window — page < 1 clamped to 1, pageSize < 1 defaulting to 20,
the slice [(page-1)*pageSize, min(total, start+pageSize)) in insertion
order, and a start index at or beyond the total yielding an empty result
with the true total — PROVIDED the two intermediate int64 computations
(page-1)*pageSize and start+pageSize do not overflow. Unrestricted the
claim is false: overflow is reachable (strconv.Atoi clamps out-of-range
query input to the maximum int and the handlers drop the error), and then
the program returns the first page where the claimed window is empty; see
the counterexample. -/
theorem findChatMessages_pagination (r : MemoryChatRepository)
    (chatId : String) (msgs : List Message) (page pageSize : Int)
    (h : getEntry? r.messages chatId = some msgs)
    (hpage : page ≤ 9223372036854775807)
    (hnostart : ((if page < 1 then 1 else page) - 1) *
      (if pageSize < 1 then 20 else pageSize) ≤ 9223372036854775807)
    (hnostop : min ((msgs.length : Int)) (((if page < 1 then 1 else page) - 1) *
        (if pageSize < 1 then 20 else pageSize)) +
      (if pageSize < 1 then 20 else pageSize) ≤ 9223372036854775807) :
    r.findChatMessages chatId page pageSize =
      some (specPaginationWindow msgs page pageSize) ∧
    ((((if page < 1 then 1 else page) - 1) *
        (if pageSize < 1 then 20 else pageSize) ≥ (msgs.length : Int)) →
      (specPaginationWindow msgs page pageSize).1 = []) := by
  have hps : (1 : Int) ≤ if pageSize < 1 then 20 else pageSize := by
    split <;> omega
  have hstart : (0 : Int) ≤ ((if page < 1 then 1 else page) - 1) *
      (if pageSize < 1 then 20 else pageSize) :=
    mul_nonneg (by split <;> omega) (by omega)
  rw [findChatMessages_entry_some r chatId msgs page pageSize h,
    calculatePaginationBounds_eq page pageSize (msgs.length)
      (by omega) hpage hnostart hnostop]
  unfold specPaginationWindow
  simp only []
  generalize hX : ((if page < 1 then 1 else page) - 1) *
      (if pageSize < 1 then 20 else pageSize) = X at hstart ⊢
  generalize hPS : (if pageSize < 1 then (20 : Int) else pageSize) = PS at hps ⊢
  constructor
  · by_cases hge : X ≥ (msgs.length : Int)
    · have h1 : min ((msgs.length : Int)) X = (msgs.length : Int) := by omega
      rw [h1, if_pos (by omega)]
      have h3 : ((min ((msgs.length : Int)) (X + PS)) - X).toNat = 0 := by omega
      rw [h3, List.take_zero]
    · have h1 : min ((msgs.length : Int)) X = X := by omega
      rw [h1, if_neg (by omega)]
  · intro hge
    have h3 : ((min ((msgs.length : Int)) (X + PS)) - X).toNat = 0 := by omega
    rw [h3, List.take_zero]

def c7m1 : Message :=
  { id := "1", chatId := "c", senderId := "A", content := "x",
    status := .sent, timestamp := 1, idempotencyKey := "" }

def c7m2 : Message :=
  { id := "2", chatId := "c", senderId := "A", content := "y",
    status := .sent, timestamp := 2, idempotencyKey := "" }

def c7m3 : Message :=
  { id := "3", chatId := "c", senderId := "A", content := "z",
    status := .sent, timestamp := 3, idempotencyKey := "" }

def c7Msgs : List Message := [c7m1, c7m2, c7m3]

def c7Repo : MemoryChatRepository := MemoryChatRepository.mk [] [("c", c7Msgs)]

/-- Witness for C7 at the spec's own example: page 3, pageSize 2 over a
3-message chat (all intermediate int64 arithmetic in range) yields an
empty page with total 3. -/
theorem findChatMessages_pagination_witness :
    (getEntry? c7Repo.messages "c" = some c7Msgs ∧
     (3 : Int) ≤ 9223372036854775807 ∧
     ((if (3 : Int) < 1 then 1 else 3) - 1) *
       (if (2 : Int) < 1 then 20 else 2) ≤ 9223372036854775807 ∧
     min ((c7Msgs.length : Int)) (((if (3 : Int) < 1 then 1 else 3) - 1) *
         (if (2 : Int) < 1 then 20 else 2)) +
       (if (2 : Int) < 1 then 20 else 2) ≤ 9223372036854775807) ∧
    c7Repo.findChatMessages "c" 3 2 = some ([], 3) := by
  refine ⟨⟨by decide, by decide, by decide, by decide⟩, ?_⟩
  have h := findChatMessages_pagination c7Repo "c" c7Msgs 3 2
    (by decide) (by decide) (by decide) (by decide)
  rw [h.1]
  decide

/-- Counterexample to claim C7 as stated (before the overflow amendment):
with page = 9223372036854775807 — reachable, since strconv.Atoi returns
the clamped maximum int on out-of-range query input and the handlers drop
the error — and pageSize = 2, the machine product (page-1)*pageSize wraps
to -4, is clamped to 0, and the program returns the FIRST page of a
3-message chat together with the true total, whereas the claimed window
[(page-1)*pageSize, min(total, start+pageSize)) is empty. -/
theorem findChatMessages_pagination_counterexample :
    c7Repo.findChatMessages "c" 9223372036854775807 2 =
      some ([c7m1, c7m2], 3) ∧
    (specPaginationWindow c7Msgs 9223372036854775807 2).1 = [] ∧
    ([c7m1, c7m2] : List Message) ≠ [] := by
  refine ⟨by decide, by decide, by decide⟩

/-! ### Header-normalization lemmas -/

theorem storedMessage_chatId (f : String) (n : Nat) (m : Message) :
    (storedMessage f n m).chatId = m.chatId := by
  simp only [storedMessage]; split_ifs <;> rfl

theorem storedMessage_senderId (f : String) (n : Nat) (m : Message) :
    (storedMessage f n m).senderId = m.senderId := by
  simp only [storedMessage]; split_ifs <;> rfl

theorem storedMessage_content (f : String) (n : Nat) (m : Message) :
    (storedMessage f n m).content = m.content := by
  simp only [storedMessage]; split_ifs <;> rfl

theorem storedMessage_status (f : String) (n : Nat) (m : Message) :
    (storedMessage f n m).status = m.status := by
  simp only [storedMessage]; split_ifs <;> rfl

theorem storedMessage_idempotencyKey (f : String) (n : Nat) (m : Message) :
    (storedMessage f n m).idempotencyKey = m.idempotencyKey := by
  simp only [storedMessage]; split_ifs <;> rfl

theorem storedMessage_id (f : String) (n : Nat) (m : Message) :
    (storedMessage f n m).id = if m.id = "" then f else m.id := by
  simp only [storedMessage]; split_ifs <;> simp_all

theorem storedChat_id (f : String) (n : Nat) (c : Chat) :
    (storedChat f n c).id = if c.id = "" then f else c.id := by
  simp only [storedChat]; split_ifs <;> simp_all

theorem storedChat_participant1 (f : String) (n : Nat) (c : Chat) :
    (storedChat f n c).participant1 = c.participant1 := by
  simp only [storedChat]; split_ifs <;> rfl

theorem storedChat_participant2 (f : String) (n : Nat) (c : Chat) :
    (storedChat f n c).participant2 = c.participant2 := by
  simp only [storedChat]; split_ifs <;> rfl

theorem touchChats_of_absent (cid : String) (n : Nat) :
    ∀ (chats : List Chat), (∀ c ∈ chats, c.id ≠ cid) →
      touchChats chats cid n = chats := by
  intro chats
  induction chats with
  | nil => intro _; rfl
  | cons c rest ih =>
    intro h
    have hstep : touchChats (c :: rest) cid n =
        (if c.id == cid then { c with updatedAt := n } else c) ::
          touchChats rest cid n := rfl
    rw [hstep, if_neg (by simpa using h c (by simp)),
      ih (fun c' hc' => h c' (by simp [hc']))]

/-! ### Claim C9: AddMessage with an unknown chat id -/

/-- Claim C9: AddMessage never returns an error; for a message whose chat id
is not present in the chat store it still appends the message under that
chat id, and every existing chat — in particular every last-activity
timestamp — is left unchanged. -/
theorem addMessage_unknown_chat
    (r : MemoryChatRepository) (freshId : String) (now : Nat) (m : Message)
    (h : ∀ c ∈ r.chats, c.id ≠ m.chatId) :
    (∀ (r' : MemoryChatRepository) (f' : String) (n' : Nat) (m' : Message),
      ∃ x, r'.addMessage f' n' m' = .ok x) ∧
    ∃ r1, r.addMessage freshId now m = .ok (storedMessage freshId now m, r1) ∧
      r1.chats = r.chats ∧
      getEntry? r1.messages m.chatId =
        some ((getEntry? r.messages m.chatId).getD [] ++ [storedMessage freshId now m]) ∧
      (∀ cid, cid ≠ m.chatId → getEntry? r1.messages cid = getEntry? r.messages cid) := by
  refine ⟨fun r' f' n' m' => ⟨_, rfl⟩, ?_⟩
  have hcid := storedMessage_chatId freshId now m
  refine ⟨{ chats := touchChats r.chats (storedMessage freshId now m).chatId now,
            messages := setEntry r.messages (storedMessage freshId now m).chatId
              ((getEntry? r.messages (storedMessage freshId now m).chatId).getD []
                ++ [storedMessage freshId now m]) }, rfl, ?_, ?_, ?_⟩
  · simp only [hcid]
    exact touchChats_of_absent m.chatId now r.chats h
  · simp only [hcid, getEntry?_setEntry_self]
  · intro cid hne
    simp only [hcid]
    exact getEntry?_setEntry_other _ _ _ _ hne

/-- Witness for C9: inserting into an empty store (no chats at all)
succeeds and files the message under its chat id. -/
theorem addMessage_unknown_chat_witness :
    (∀ c ∈ (MemoryChatRepository.empty).chats, c.id ≠ "c9") ∧
    ∃ r1, MemoryChatRepository.empty.addMessage "m9" 7
        { id := "", chatId := "c9", senderId := "A", content := "hello",
          status := .sent, timestamp := 0, idempotencyKey := "" } =
      .ok (storedMessage "m9" 7
          { id := "", chatId := "c9", senderId := "A", content := "hello",
            status := .sent, timestamp := 0, idempotencyKey := "" }, r1) ∧
      r1.chats = (MemoryChatRepository.empty).chats := by
  have h := addMessage_unknown_chat MemoryChatRepository.empty "m9" 7
    { id := "", chatId := "c9", senderId := "A", content := "hello",
      status := .sent, timestamp := 0, idempotencyKey := "" }
    (by intro c hc; cases hc)
  refine ⟨(by intro c hc; cases hc), ?_⟩
  obtain ⟨-, r1, heq, hchats, -, -⟩ := h
  exact ⟨r1, heq, hchats⟩

/-! ### Claim C6: SendMessage validation -/

/-- Claim C6: SendMessage validates in order — an empty sender or recipient
id yields ErrInvalidUser; with both ids non-empty, sender = recipient yields
ErrCannotMessageSelf; with both ids non-empty and distinct, empty content
yields ErrEmptyMessage — and on every validation failure the repository
state is returned unchanged (no chat created, nothing mutated). -/
theorem sendMessage_validation (r : MemoryChatRepository)
    (fc fm : String) (now : Nat) (senderId recipientId content key : String) :
    ((senderId = "" ∨ recipientId = "") →
      MessageService.sendMessage r fc fm now senderId recipientId content key =
        (r, .error .invalidUser)) ∧
    (senderId ≠ "" → recipientId ≠ "" → senderId = recipientId →
      MessageService.sendMessage r fc fm now senderId recipientId content key =
        (r, .error .cannotMessageSelf)) ∧
    (senderId ≠ "" → recipientId ≠ "" → senderId ≠ recipientId → content = "" →
      MessageService.sendMessage r fc fm now senderId recipientId content key =
        (r, .error .emptyMessage)) := by
  refine ⟨?_, ?_, ?_⟩
  · intro h
    unfold MessageService.sendMessage
    rw [if_pos h]
  · intro h1 h2 h3
    unfold MessageService.sendMessage
    rw [if_neg (by tauto), if_pos h3]
  · intro h1 h2 h3 h4
    unfold MessageService.sendMessage
    rw [if_neg (by tauto), if_neg h3, if_pos h4]

/-- Witness for C6, at the spec's own §8 examples. -/
theorem sendMessage_validation_witness :
    MessageService.sendMessage MemoryChatRepository.empty "c" "m" 1 "" "B" "hi" "" =
      (MemoryChatRepository.empty, .error .invalidUser) ∧
    MessageService.sendMessage MemoryChatRepository.empty "c" "m" 1 "A" "A" "hi" "" =
      (MemoryChatRepository.empty, .error .cannotMessageSelf) ∧
    MessageService.sendMessage MemoryChatRepository.empty "c" "m" 1 "A" "B" "" "" =
      (MemoryChatRepository.empty, .error .emptyMessage) := by
  refine ⟨?_, ?_, ?_⟩
  · exact (sendMessage_validation MemoryChatRepository.empty "c" "m" 1 "" "B" "hi" "").1
      (Or.inl rfl)
  · exact (sendMessage_validation MemoryChatRepository.empty "c" "m" 1 "A" "A" "hi" "").2.1
      (by decide) (by decide) rfl
  · exact (sendMessage_validation MemoryChatRepository.empty "c" "m" 1 "A" "B" "" "").2.2
      (by decide) (by decide) (by decide) rfl

/-! ### Status-update support lemmas -/

theorem setStatusFirst_eq_none (mid : String) (st : MessageStatus) :
    ∀ (msgs : List Message), msgs.find? (fun m => m.id == mid) = none →
      setStatusFirst msgs mid st = none := by
  intro msgs
  induction msgs with
  | nil => intro _; rfl
  | cons m rest ih =>
    intro h
    have hm : ¬((fun (q : Message) => q.id == mid) m) = true := by
      intro hx
      rw [List.find?_cons_of_pos (p := fun (q : Message) => q.id == mid) _ hx] at h
      cases h
    rw [List.find?_cons_of_neg (p := fun (q : Message) => q.id == mid) _ hm] at h
    show (if m.id == mid then _ else (setStatusFirst rest mid st).map _) = none
    rw [if_neg hm, ih h]
    rfl

theorem setStatusFirst_of_find (mid : String) (st : MessageStatus) :
    ∀ (msgs : List Message) (m : Message),
      msgs.find? (fun q => q.id == mid) = some m →
      ∃ msgs1, setStatusFirst msgs mid st = some msgs1 ∧
        msgs1.find? (fun q => q.id == mid) = some { m with status := st } := by
  intro msgs
  induction msgs with
  | nil => intro m h; cases h
  | cons m0 rest ih =>
    intro m h
    by_cases hm : ((fun (q : Message) => q.id == mid) m0) = true
    · rw [List.find?_cons_of_pos (p := fun (q : Message) => q.id == mid) _ hm] at h
      cases h
      refine ⟨{ m0 with status := st } :: rest, ?_, ?_⟩
      · show (if m0.id == mid then some _ else _) = _
        rw [if_pos hm]
      · exact List.find?_cons_of_pos (p := fun (q : Message) => q.id == mid) _ (by simpa using hm)
    · rw [List.find?_cons_of_neg (p := fun (q : Message) => q.id == mid) _ hm] at h
      obtain ⟨msgs1, h1, h2⟩ := ih m h
      refine ⟨m0 :: msgs1, ?_, ?_⟩
      · show (if m0.id == mid then some _ else (setStatusFirst rest mid st).map _) = _
        rw [if_neg hm, h1]
        rfl
      · rw [List.find?_cons_of_neg (p := fun (q : Message) => q.id == mid) _ hm]
        exact h2

theorem updateStatusInEntries_of_find (mid : String) (st : MessageStatus) :
    ∀ (es : List (String × List Message)) (m : Message),
      findInEntries es mid = some m →
      ∃ es1, updateStatusInEntries es mid st = some es1 ∧
        findInEntries es1 mid = some { m with status := st } := by
  intro es
  induction es with
  | nil => intro m h; cases h
  | cons p rest ih =>
    intro m h
    obtain ⟨k, msgs⟩ := p
    unfold findInEntries at h
    match hf : msgs.find? (fun q => q.id == mid) with
    | some m0 =>
      rw [hf] at h
      cases h
      obtain ⟨msgs1, h1, h2⟩ := setStatusFirst_of_find mid st msgs m hf
      refine ⟨(k, msgs1) :: rest, ?_, ?_⟩
      · unfold updateStatusInEntries
        rw [h1]
      · unfold findInEntries
        rw [h2]
    | none =>
      rw [hf] at h
      obtain ⟨es1, h1, h2⟩ := ih m h
      refine ⟨(k, msgs) :: es1, ?_, ?_⟩
      · unfold updateStatusInEntries
        rw [setStatusFirst_eq_none mid st msgs hf, h1]
        rfl
      · unfold findInEntries
        rw [hf]
        exact h2

/-- UpdateMessageStatus on an existing message succeeds and records the new
status, leaving the chats map untouched. -/
theorem updateMessageStatus_of_find (r : MemoryChatRepository)
    (mid : String) (st : MessageStatus) (m : Message)
    (h : r.findMessageByID mid = some m) :
    ∃ r1, r.updateMessageStatus mid st = .ok r1 ∧
      r1.statusOf mid = some st ∧ r1.chats = r.chats := by
  obtain ⟨es1, h1, h2⟩ := updateStatusInEntries_of_find mid st r.messages m h
  refine ⟨{ chats := r.chats, messages := es1 }, ?_, ?_, rfl⟩
  · unfold MemoryChatRepository.updateMessageStatus
    rw [h1]
  · unfold MemoryChatRepository.statusOf
    show (findInEntries es1 mid).map _ = _
    rw [h2]
    rfl

/-! ### Claim C2: Broadcast outcomes -/

theorem lookup_filter_out (l : List (String × Client)) (uid : String) :
    List.find? (fun (p : String × Client) => p.1 == uid)
      (l.filter (fun p => p.1 != uid)) = none := by
  apply List.find?_eq_none.mpr
  intro x hx
  have hx2 := (List.mem_filter.mp hx).2
  simpa using hx2

theorem broadcastMessage_eq_some (h : ConnectionHub) (r : MemoryChatRepository)
    (msg : Message) (rid : String) (c : Client)
    (hc : h.lookupClient rid = some c) :
    h.broadcastMessage r msg rid =
      (if c.sendQueue.length < c.sendCap then
        match MessageService.updateMessageStatus r msg.id .delivered with
        | .ok r1 =>
          ({ h with clients := h.clients.map (fun p =>
              if p.1 == rid then (p.1, { c with sendQueue := c.sendQueue ++ [msg.id] }) else p) }, r1)
        | .error _ =>
          ({ h with clients := h.clients.map (fun p =>
              if p.1 == rid then (p.1, { c with sendQueue := c.sendQueue ++ [msg.id] }) else p) }, r)
      else
        ({ clients := h.clients.filter (fun p => p.1 != rid),
           closedChans := c.cid :: h.closedChans }, r)) := by
  unfold ConnectionHub.broadcastMessage
  rw [hc]

/-- Claim C2: processing one Broadcast(message, recipient) event has exactly
three outcomes. No live session: the event is a complete no-op (so the
message's status stays whatever it was, in particular `sent`). Non-blocking
enqueue succeeds: the message's status is updated to `delivered`. Enqueue
fails because the queue is full: the session is evicted — mapping removed
and its channel closed — and the store (hence the status) is untouched. -/
theorem broadcast_outcomes (h : ConnectionHub) (r : MemoryChatRepository)
    (msg : Message) (rid : String) :
    (h.lookupClient rid = none → h.broadcastMessage r msg rid = (h, r)) ∧
    (∀ c, h.lookupClient rid = some c → c.sendQueue.length < c.sendCap →
      ∀ m, r.findMessageByID msg.id = some m →
        ((h.broadcastMessage r msg rid).2).statusOf msg.id = some .delivered) ∧
    (∀ c, h.lookupClient rid = some c → ¬ c.sendQueue.length < c.sendCap →
      (h.broadcastMessage r msg rid).2 = r ∧
      (h.broadcastMessage r msg rid).1.lookupClient rid = none ∧
      c.cid ∈ (h.broadcastMessage r msg rid).1.closedChans) := by
  refine ⟨?_, ?_, ?_⟩
  · intro hn
    unfold ConnectionHub.broadcastMessage
    rw [hn]
  · intro c hc hlt m hm
    obtain ⟨r1, h1, h2, h3⟩ := updateMessageStatus_of_find r msg.id .delivered m hm
    rw [broadcastMessage_eq_some h r msg rid c hc, if_pos hlt]
    unfold MessageService.updateMessageStatus
    rw [h1]
    exact h2
  · intro c hc hge
    rw [broadcastMessage_eq_some h r msg rid c hc, if_neg hge]
    refine ⟨rfl, ?_, List.mem_cons_self _ _⟩
    show (List.find? (fun (p : String × Client) => p.1 == rid)
      (h.clients.filter (fun p => p.1 != rid))).map (fun p => p.2) = none
    rw [lookup_filter_out]
    rfl

/-- Fixtures shared by the hub-side witnesses. -/
def wMsg : Message :=
  { id := "m1", chatId := "c1", senderId := "A", content := "hi",
    status := .sent, timestamp := 1, idempotencyKey := "" }

def wRepo : MemoryChatRepository :=
  { chats := [{ id := "c1", participant1 := "A", participant2 := "B",
                createdAt := 1, updatedAt := 1 }],
    messages := [("c1", [wMsg])] }

def wClient : Client :=
  { cid := 1, userId := "B", sendCap := 2, sendQueue := [] }

def wHub : ConnectionHub :=
  { clients := [("B", wClient)], closedChans := [] }

/-- Witness for C2: with B connected and queue space available, broadcasting
wMsg to B marks it delivered. -/
theorem broadcast_outcomes_witness :
    wHub.lookupClient "B" = some wClient ∧
    wClient.sendQueue.length < wClient.sendCap ∧
    wRepo.findMessageByID wMsg.id = some wMsg ∧
    ((wHub.broadcastMessage wRepo wMsg "B").2).statusOf wMsg.id = some .delivered := by
  refine ⟨by decide, by decide, by decide, ?_⟩
  exact (broadcast_outcomes wHub wRepo wMsg "B").2.1 wClient (by decide) (by decide)
    wMsg (by decide)

/-! ### Claim C10: mark_read has no participant or ownership check -/

/-- Claim C10: an inbound frame that parses with type "mark_read" makes the
reader set the identified message's status to `read` whenever the message
exists, and the result never depends on which session (user) delivered the
frame — no participant or ownership check exists on this path. -/
theorem markRead_unconditional (c c' : Client) (r : MemoryChatRepository)
    (mid : String) :
    (∀ f, c.handleInboundFrame r f = c'.handleInboundFrame r f) ∧
    (∀ m, r.findMessageByID mid = some m →
      (c.handleInboundFrame r (.frame "mark_read" mid)).statusOf mid = some .read) := by
  refine ⟨fun f => rfl, ?_⟩
  intro m hm
  obtain ⟨r1, h1, h2, h3⟩ := updateMessageStatus_of_find r mid .read m hm
  show (if ("mark_read" : String) = "mark_read" then
      match MessageService.updateMessageStatus r mid .read with
      | .ok r1 => r1
      | .error _ => r
    else r).statusOf mid = some .read
  rw [if_pos (rfl : ("mark_read" : String) = "mark_read")]
  unfold MessageService.updateMessageStatus
  rw [h1]
  exact h2

/-- Witness for C10: a session belonging to user Z — neither participant of
wMsg's chat nor its sender — marks wMsg read. -/
theorem markRead_unconditional_witness :
    wRepo.findMessageByID "m1" = some wMsg ∧
    ((Client.handleInboundFrame
        { cid := 9, userId := "Z", sendCap := 1, sendQueue := [] }
        wRepo (.frame "mark_read" "m1")).statusOf "m1" = some .read) := by
  refine ⟨by decide, ?_⟩
  exact (markRead_unconditional
    { cid := 9, userId := "Z", sendCap := 1, sendQueue := [] }
    wClient wRepo "m1").2 wMsg (by decide)

/-! ### Claim C3: Register evicts the old session; one session per user -/

/-- At most one live session per user id: the client-map keys are distinct.
This is the map-model invariant behind "exactly one session per user id". -/
def ConnectionHub.nodupKeys (h : ConnectionHub) : Prop :=
  (h.clients.map Prod.fst).Nodup

theorem find?_filter_other (a b : String) (hne : a ≠ b)
    (l : List (String × Client)) :
    List.find? (fun p => p.1 == a) (l.filter (fun p => p.1 != b)) =
      List.find? (fun p => p.1 == a) l := by
  induction l with
  | nil => rfl
  | cons p rest ih =>
    by_cases hp : ((fun (q : String × Client) => q.1 == a) p) = true
    · have hpa : p.1 = a := by simpa using hp
      have hq : ((fun (q : String × Client) => q.1 != b) p) = true := by
        simp [hpa, hne]
      rw [List.filter_cons_of_pos (p := fun (q : String × Client) => q.1 != b) hq,
        List.find?_cons_of_pos (p := fun (q : String × Client) => q.1 == a) _ hp,
        List.find?_cons_of_pos (p := fun (q : String × Client) => q.1 == a) _ hp]
    · by_cases hq : ((fun (q : String × Client) => q.1 != b) p) = true
      · rw [List.filter_cons_of_pos (p := fun (q : String × Client) => q.1 != b) hq,
          List.find?_cons_of_neg (p := fun (q : String × Client) => q.1 == a) _ hp,
          List.find?_cons_of_neg (p := fun (q : String × Client) => q.1 == a) _ hp]
        exact ih
      · rw [List.filter_cons_of_neg (p := fun (q : String × Client) => q.1 != b) hq,
          List.find?_cons_of_neg (p := fun (q : String × Client) => q.1 == a) _ hp]
        exact ih

theorem find?_append_single_self (l : List (String × Client)) (uid : String)
    (c : Client) (hl : List.find? (fun p => p.1 == uid) l = none) :
    List.find? (fun p => p.1 == uid) (l ++ [(uid, c)]) = some (uid, c) := by
  rw [List.find?_append, hl, Option.none_or]
  exact List.find?_cons_of_pos (p := fun (q : String × Client) => q.1 == uid) _ (by simp)

theorem register_eq_some (h : ConnectionHub) (c old : Client)
    (hl : h.lookupClient c.userId = some old) :
    h.register c =
      { clients := (h.clients.filter (fun p => p.1 != c.userId)) ++ [(c.userId, c)],
        closedChans := old.cid :: h.closedChans } := by
  unfold ConnectionHub.register
  rw [hl]

theorem register_eq_none (h : ConnectionHub) (c : Client)
    (hl : h.lookupClient c.userId = none) :
    h.register c =
      { clients := h.clients ++ [(c.userId, c)], closedChans := h.closedChans } := by
  unfold ConnectionHub.register
  rw [hl]

/-- Claim C3: after Register(c) the hub map holds exactly the new session c
for c.userId (entries of all other user ids are untouched); a previously
existing session for that user id had its channel closed; and distinctness
of the map keys — at most one session per user id — is preserved by
register, unregister and broadcast alike, i.e. by every hub event. -/
theorem register_exclusive (h : ConnectionHub) (c : Client) :
    ((h.register c).lookupClient c.userId = some c) ∧
    (∀ uid, uid ≠ c.userId → (h.register c).lookupClient uid = h.lookupClient uid) ∧
    (∀ old, h.lookupClient c.userId = some old →
      old.cid ∈ (h.register c).closedChans) ∧
    (h.nodupKeys → (h.register c).nodupKeys) ∧
    (∀ c', h.nodupKeys → (h.unregister c').nodupKeys) ∧
    (∀ r msg rid, h.nodupKeys → ((h.broadcastMessage r msg rid).1).nodupKeys) := by
  refine ⟨?_, ?_, ?_, ?_, ?_, ?_⟩
  · cases hl : h.lookupClient c.userId with
    | none =>
      rw [register_eq_none h c hl]
      show (List.find? (fun p => p.1 == c.userId)
        (h.clients ++ [(c.userId, c)])).map (fun p => p.2) = some c
      rw [find?_append_single_self _ _ _ (Option.map_eq_none'.mp hl)]
      rfl
    | some old =>
      rw [register_eq_some h c old hl]
      show (List.find? (fun p => p.1 == c.userId)
        ((h.clients.filter (fun p => p.1 != c.userId)) ++ [(c.userId, c)])).map
          (fun p => p.2) = some c
      rw [find?_append_single_self _ _ _ (lookup_filter_out h.clients c.userId)]
      rfl
  · intro uid hne
    have hsingle : List.find? (fun (p : String × Client) => p.1 == uid)
        [(c.userId, c)] = none := by
      apply List.find?_eq_none.mpr
      intro x hx
      rcases List.mem_singleton.mp hx with rfl
      simpa using Ne.symm hne
    cases hl : h.lookupClient c.userId with
    | none =>
      rw [register_eq_none h c hl]
      show (List.find? (fun p => p.1 == uid)
        (h.clients ++ [(c.userId, c)])).map (fun p => p.2) = h.lookupClient uid
      rw [List.find?_append, hsingle, Option.or_none]
      rfl
    | some old =>
      rw [register_eq_some h c old hl]
      show (List.find? (fun p => p.1 == uid)
        ((h.clients.filter (fun p => p.1 != c.userId)) ++ [(c.userId, c)])).map
          (fun p => p.2) = h.lookupClient uid
      rw [List.find?_append, hsingle, Option.or_none,
        find?_filter_other uid c.userId hne h.clients]
      rfl
  · intro old hl
    rw [register_eq_some h c old hl]
    exact List.mem_cons_self _ _
  · intro hn
    cases hl : h.lookupClient c.userId with
    | none =>
      rw [register_eq_none h c hl]
      show ((h.clients ++ [(c.userId, c)]).map Prod.fst).Nodup
      rw [List.map_append]
      simp only [List.map_cons, List.map_nil]
      rw [List.nodup_append]
      refine ⟨hn, List.nodup_singleton _, ?_⟩
      rw [List.disjoint_singleton]
      intro hmem
      obtain ⟨p, hp, hp1⟩ := List.mem_map.mp hmem
      have := List.find?_eq_none.mp (Option.map_eq_none'.mp hl) p hp
      simp [hp1] at this
    | some old =>
      rw [register_eq_some h c old hl]
      show (((h.clients.filter (fun p => p.1 != c.userId)) ++ [(c.userId, c)]).map
        Prod.fst).Nodup
      rw [List.map_append]
      simp only [List.map_cons, List.map_nil]
      rw [List.nodup_append]
      refine ⟨List.Nodup.sublist ((List.filter_sublist _).map Prod.fst) hn,
        List.nodup_singleton _, ?_⟩
      rw [List.disjoint_singleton]
      intro hmem
      obtain ⟨p, hp, hp1⟩ := List.mem_map.mp hmem
      have := (List.mem_filter.mp hp).2
      simp [hp1] at this
  · intro c' hn
    unfold ConnectionHub.unregister
    cases hl : h.lookupClient c'.userId with
    | none => exact hn
    | some existing =>
      show ConnectionHub.nodupKeys (if (existing.cid == c'.cid) = true then
        { clients := h.clients.filter (fun p => p.1 != c'.userId),
          closedChans := c'.cid :: h.closedChans } else h)
      split
      · exact List.Nodup.sublist ((List.filter_sublist _).map Prod.fst) hn
      · exact hn
  · intro r msg rid hn
    cases hl : h.lookupClient rid with
    | none =>
      unfold ConnectionHub.broadcastMessage
      rw [hl]
      exact hn
    | some c0 =>
      rw [broadcastMessage_eq_some h r msg rid c0 hl]
      by_cases hlt : c0.sendQueue.length < c0.sendCap
      · rw [if_pos hlt]
        have hkeys : ((h.clients.map (fun p =>
            if p.1 == rid then (p.1, { c0 with sendQueue := c0.sendQueue ++ [msg.id] })
            else p)).map Prod.fst) = h.clients.map Prod.fst := by
          rw [List.map_map]
          apply List.map_congr_left
          intro p hp
          by_cases hb : p.1 = rid <;> simp [hb]
        cases hu : MessageService.updateMessageStatus r msg.id .delivered with
        | ok r1 =>
          show ((h.clients.map (fun p =>
            if p.1 == rid then (p.1, { c0 with sendQueue := c0.sendQueue ++ [msg.id] })
            else p)).map Prod.fst).Nodup
          rw [hkeys]
          exact hn
        | error e =>
          show ((h.clients.map (fun p =>
            if p.1 == rid then (p.1, { c0 with sendQueue := c0.sendQueue ++ [msg.id] })
            else p)).map Prod.fst).Nodup
          rw [hkeys]
          exact hn
      · rw [if_neg hlt]
        exact List.Nodup.sublist ((List.filter_sublist _).map Prod.fst) hn

/-- Witness for C3: registering a second session for user B evicts the
first one (channel 1 closed) and the map then holds only the new session. -/
theorem register_exclusive_witness :
    (wHub.register { cid := 2, userId := "B", sendCap := 2, sendQueue := [] }).lookupClient "B" =
      some { cid := 2, userId := "B", sendCap := 2, sendQueue := [] } ∧
    wHub.lookupClient "B" = some wClient ∧
    wClient.cid ∈ (wHub.register
      { cid := 2, userId := "B", sendCap := 2, sendQueue := [] }).closedChans ∧
    wHub.nodupKeys ∧
    (wHub.register { cid := 2, userId := "B", sendCap := 2, sendQueue := [] }).nodupKeys := by
  have h := register_exclusive wHub { cid := 2, userId := "B", sendCap := 2, sendQueue := [] }
  have hn : wHub.nodupKeys := by
    show ((wHub.clients.map Prod.fst)).Nodup
    decide
  exact ⟨h.1, by decide, h.2.2.1 wClient (by decide), hn, h.2.2.2.1 hn⟩

/-! ### Find/create support lemmas for idempotency and pair-symmetry -/

theorem setChat_of_absent (c : Chat) :
    ∀ (chats : List Chat), (∀ c0 ∈ chats, c0.id ≠ c.id) →
      setChat chats c = chats ++ [c] := by
  intro chats
  induction chats with
  | nil => intro _; rfl
  | cons c0 rest ih =>
    intro h
    show (if c0.id == c.id then c :: rest else c0 :: setChat rest c) = _
    rw [if_neg (by simpa using h c0 (by simp)),
      ih (fun c' hc' => h c' (by simp [hc']))]
    rfl

theorem touch_id (cid : String) (n : Nat) (c : Chat) :
    ((fun c => if c.id == cid then { c with updatedAt := n } else c) c).id = c.id := by
  by_cases hb : (c.id == cid) = true <;> simp [hb]

theorem find?_chatMatches_touchChats (l : List Chat) (cid : String) (n : Nat)
    (u1 u2 : String) :
    List.find? (fun c => chatMatches c u1 u2) (touchChats l cid n) =
      (List.find? (fun c => chatMatches c u1 u2) l).map
        (fun c => if c.id == cid then { c with updatedAt := n } else c) := by
  unfold touchChats
  rw [List.find?_map]
  have hfun : ((fun c => chatMatches c u1 u2) ∘
      (fun c => if c.id == cid then { c with updatedAt := n } else c)) =
      (fun c => chatMatches c u1 u2) := by
    funext c
    by_cases hb : (c.id == cid) = true <;> simp [Function.comp, chatMatches, hb]
  rw [hfun]

theorem chatMatches_self_pair (a b : String) (c : Chat)
    (h1 : c.participant1 = a) (h2 : c.participant2 = b) :
    chatMatches c a b = true := by
  simp [chatMatches, h1, h2]

theorem findMessageByKey_entry_some (r : MemoryChatRepository)
    (cid key : String) (msgs : List Message)
    (h : getEntry? r.messages cid = some msgs) :
    r.findMessageByKey cid key = msgs.find? (fun m => m.idempotencyKey == key) := by
  unfold MemoryChatRepository.findMessageByKey
  rw [h]

theorem find?_key_append_new (msgs : List Message) (key : String) (m' : Message)
    (hkey : m'.idempotencyKey = key)
    (hnone : msgs.find? (fun m => m.idempotencyKey == key) = none) :
    (msgs ++ [m']).find? (fun m => m.idempotencyKey == key) = some m' := by
  rw [List.find?_append, hnone, Option.none_or]
  exact List.find?_cons_of_pos
    (p := fun (m : Message) => m.idempotencyKey == key) _ (by simp [hkey])

theorem findOrCreateChat_eq_found (r : MemoryChatRepository)
    (fc : String) (now : Nat) (a b : String) (chat : Chat)
    (hf : r.findByParticipants a b = some chat) :
    MessageService.findOrCreateChat r fc now a b = .ok (chat, r) := by
  unfold MessageService.findOrCreateChat
  rw [hf]

theorem findOrCreateChat_eq_created (r : MemoryChatRepository)
    (fc : String) (now : Nat) (a b : String)
    (hf : r.findByParticipants a b = none) :
    MessageService.findOrCreateChat r fc now a b =
      .ok (storedChat fc now
            { id := "", participant1 := a, participant2 := b,
              createdAt := 0, updatedAt := 0 },
          { chats := setChat r.chats (storedChat fc now
              { id := "", participant1 := a, participant2 := b,
                createdAt := 0, updatedAt := 0 }),
            messages := setEntry r.messages (storedChat fc now
              { id := "", participant1 := a, participant2 := b,
                createdAt := 0, updatedAt := 0 }).id [] }) := by
  unfold MessageService.findOrCreateChat MemoryChatRepository.createChat
  rw [hf]

theorem sendMessage_after_chat (r rA : MemoryChatRepository)
    (fc fm : String) (now : Nat) (senderId recipientId content key : String)
    (chat : Chat)
    (hv1 : ¬(senderId = "" ∨ recipientId = ""))
    (hv2 : senderId ≠ recipientId) (hv3 : content ≠ "")
    (hfoc : MessageService.findOrCreateChat r fc now senderId recipientId =
      .ok (chat, rA)) :
    MessageService.sendMessage r fc fm now senderId recipientId content key =
      (match (if key ≠ "" then rA.findMessageByKey chat.id key else none) with
       | some existingMsg => (rA, .ok existingMsg)
       | none =>
         match rA.addMessage fm now
             { id := "", chatId := chat.id, senderId := senderId,
               content := content, status := .sent, timestamp := now,
               idempotencyKey := key } with
         | .ok (m, r2) => (r2, .ok m)
         | .error e => (rA, .error e)) := by
  unfold MessageService.sendMessage
  rw [if_neg hv1, if_neg hv2, if_neg hv3, hfoc]

theorem sendMessage_dedupe_hit (r rA : MemoryChatRepository)
    (fc fm : String) (now : Nat) (senderId recipientId content key : String)
    (chat : Chat) (m : Message)
    (hv1 : ¬(senderId = "" ∨ recipientId = ""))
    (hv2 : senderId ≠ recipientId) (hv3 : content ≠ "")
    (hfoc : MessageService.findOrCreateChat r fc now senderId recipientId =
      .ok (chat, rA))
    (hkey : key ≠ "")
    (hm : rA.findMessageByKey chat.id key = some m) :
    MessageService.sendMessage r fc fm now senderId recipientId content key =
      (rA, .ok m) := by
  rw [sendMessage_after_chat r rA fc fm now senderId recipientId content key
    chat hv1 hv2 hv3 hfoc, if_pos hkey, hm]

/-- The Message literal built by SendMessage before AddMessage. -/
def newMessage (chatId senderId content idempotencyKey : String) (now : Nat) :
    Message :=
  { id := "", chatId := chatId, senderId := senderId, content := content,
    status := .sent, timestamp := now, idempotencyKey := idempotencyKey }

/-- The repository AddMessage leaves behind, as a named abbreviation. -/
def addResultRepo (rA : MemoryChatRepository) (fm : String) (now : Nat)
    (m0 : Message) : MemoryChatRepository :=
  { chats := touchChats rA.chats (storedMessage fm now m0).chatId now,
    messages := setEntry rA.messages (storedMessage fm now m0).chatId
      ((getEntry? rA.messages (storedMessage fm now m0).chatId).getD [] ++
        [storedMessage fm now m0]) }

theorem addMessage_eq (r : MemoryChatRepository) (fm : String) (now : Nat)
    (m0 : Message) :
    r.addMessage fm now m0 = .ok (storedMessage fm now m0, addResultRepo r fm now m0) :=
  rfl

theorem sendMessage_dedupe_miss (r rA : MemoryChatRepository)
    (fc fm : String) (now : Nat) (senderId recipientId content key : String)
    (chat : Chat)
    (hv1 : ¬(senderId = "" ∨ recipientId = ""))
    (hv2 : senderId ≠ recipientId) (hv3 : content ≠ "")
    (hfoc : MessageService.findOrCreateChat r fc now senderId recipientId =
      .ok (chat, rA))
    (hnone : (if key ≠ "" then rA.findMessageByKey chat.id key else none) = none) :
    MessageService.sendMessage r fc fm now senderId recipientId content key =
      (addResultRepo rA fm now (newMessage chat.id senderId content key now),
       .ok (storedMessage fm now (newMessage chat.id senderId content key now))) := by
  rw [sendMessage_after_chat r rA fc fm now senderId recipientId content key
    chat hv1 hv2 hv3 hfoc, hnone]
  rfl

theorem ok_of_sendMessage (r r1 : MemoryChatRepository)
    (fc fm : String) (now : Nat) (a b content key : String) (m1 : Message)
    (h : MessageService.sendMessage r fc fm now a b content key = (r1, .ok m1)) :
    ¬(a = "" ∨ b = "") ∧ a ≠ b ∧ content ≠ "" := by
  have hval := sendMessage_validation r fc fm now a b content key
  refine ⟨?_, ?_, ?_⟩
  · intro hv
    rw [hval.1 hv] at h
    simpa using congrArg Prod.snd h
  · intro hab
    by_cases hv : a = "" ∨ b = ""
    · rw [hval.1 hv] at h
      simpa using congrArg Prod.snd h
    · push_neg at hv
      rw [hval.2.1 hv.1 hv.2 hab] at h
      simpa using congrArg Prod.snd h
  · intro hcontent
    by_cases hv : a = "" ∨ b = ""
    · rw [hval.1 hv] at h
      simpa using congrArg Prod.snd h
    · push_neg at hv
      by_cases hab : a = b
      · rw [hval.2.1 hv.1 hv.2 hab] at h
        simpa using congrArg Prod.snd h
      · rw [hval.2.2 hv.1 hv.2 hab hcontent] at h
        simpa using congrArg Prod.snd h

/-- After a miss-then-insert with key `key` in chat `chat`, a second send
with the same sender, recipient and key finds the chat again (find-or-create
does not create) and the dedupe check returns exactly the inserted message,
so the second send is a pure read. -/
theorem second_send_after_miss (rA : MemoryChatRepository)
    (fm1 fc2 fm2 : String) (n1 n2 : Nat)
    (senderId recipientId content1 content2 key : String) (chat : Chat)
    (hv1 : ¬(senderId = "" ∨ recipientId = ""))
    (hv2 : senderId ≠ recipientId) (hcontent2 : content2 ≠ "")
    (hkey : key ≠ "")
    (hfA : rA.findByParticipants senderId recipientId = some chat)
    (hnoneA : rA.findMessageByKey chat.id key = none) :
    MessageService.sendMessage
        (addResultRepo rA fm1 n1 (newMessage chat.id senderId content1 key n1))
        fc2 fm2 n2 senderId recipientId content2 key =
      (addResultRepo rA fm1 n1 (newMessage chat.id senderId content1 key n1),
       .ok (storedMessage fm1 n1 (newMessage chat.id senderId content1 key n1))) := by
  have hMcid : (storedMessage fm1 n1
      (newMessage chat.id senderId content1 key n1)).chatId = chat.id :=
    storedMessage_chatId _ _ _
  have hMkey : (storedMessage fm1 n1
      (newMessage chat.id senderId content1 key n1)).idempotencyKey = key :=
    storedMessage_idempotencyKey _ _ _
  have hf2 : (addResultRepo rA fm1 n1
      (newMessage chat.id senderId content1 key n1)).findByParticipants
        senderId recipientId =
      some ((fun c => if c.id == (storedMessage fm1 n1
          (newMessage chat.id senderId content1 key n1)).chatId then
        { c with updatedAt := n1 } else c) chat) := by
    show List.find? (fun c => chatMatches c senderId recipientId)
      (touchChats rA.chats (storedMessage fm1 n1
        (newMessage chat.id senderId content1 key n1)).chatId n1) = _
    rw [find?_chatMatches_touchChats,
      show List.find? (fun c => chatMatches c senderId recipientId) rA.chats =
        some chat from hfA]
    rfl
  have hold : ((getEntry? rA.messages (storedMessage fm1 n1
      (newMessage chat.id senderId content1 key n1)).chatId).getD []).find?
        (fun m => m.idempotencyKey == key) = none := by
    rw [hMcid]
    cases hge : getEntry? rA.messages chat.id with
    | none => rfl
    | some msgs =>
      have h2 : msgs.find? (fun m => m.idempotencyKey == key) = none := by
        rw [← findMessageByKey_entry_some rA chat.id key msgs hge]
        exact hnoneA
      exact h2
  have hm2' : (addResultRepo rA fm1 n1
      (newMessage chat.id senderId content1 key n1)).findMessageByKey
        (storedMessage fm1 n1
          (newMessage chat.id senderId content1 key n1)).chatId key =
      some (storedMessage fm1 n1 (newMessage chat.id senderId content1 key n1)) := by
    rw [findMessageByKey_entry_some _ _ key _
      (getEntry?_setEntry_self rA.messages (storedMessage fm1 n1
        (newMessage chat.id senderId content1 key n1)).chatId _)]
    exact find?_key_append_new _ key _ hMkey hold
  have hid : ((fun c => if c.id == (storedMessage fm1 n1
      (newMessage chat.id senderId content1 key n1)).chatId then
        { c with updatedAt := n1 } else c) chat).id =
      (storedMessage fm1 n1 (newMessage chat.id senderId content1 key n1)).chatId := by
    rw [touch_id]
    exact hMcid.symm
  have hm2 : (addResultRepo rA fm1 n1
      (newMessage chat.id senderId content1 key n1)).findMessageByKey
        ((fun c => if c.id == (storedMessage fm1 n1
          (newMessage chat.id senderId content1 key n1)).chatId then
          { c with updatedAt := n1 } else c) chat).id key =
      some (storedMessage fm1 n1 (newMessage chat.id senderId content1 key n1)) := by
    rw [hid]
    exact hm2'
  exact sendMessage_dedupe_hit _ _ fc2 fm2 n2 senderId recipientId content2 key
    _ _ hv1 hv2 hcontent2
    (findOrCreateChat_eq_found _ fc2 n2 senderId recipientId _ hf2) hkey hm2

/-! ### Claim C1: idempotent resend -/

/-- Claim C1: if SendMessage with a non-empty idempotency key succeeded
(drawing a chat uuid fresh for the store), then a second SendMessage with
the same sender, recipient and key — any non-empty content, any uuids, any
time — returns the repository state completely unchanged (so no new message
row exists and the chat's message count is unchanged) paired with the very
message of the first call, whose id is therefore identical. -/
theorem sendMessage_idempotent (r r1 : MemoryChatRepository)
    (fc1 fm1 fc2 fm2 : String) (n1 n2 : Nat)
    (senderId recipientId content1 content2 key : String) (m1 : Message)
    (hkey : key ≠ "") (hcontent2 : content2 ≠ "")
    (hfresh : ∀ c ∈ r.chats, c.id ≠ fc1)
    (h1 : MessageService.sendMessage r fc1 fm1 n1 senderId recipientId content1 key =
      (r1, .ok m1)) :
    MessageService.sendMessage r1 fc2 fm2 n2 senderId recipientId content2 key =
      (r1, .ok m1) := by
  obtain ⟨hv1, hv2, hv3⟩ :=
    ok_of_sendMessage r r1 fc1 fm1 n1 senderId recipientId content1 key m1 h1
  cases hf : r.findByParticipants senderId recipientId with
  | some chat0 =>
    have hfoc := findOrCreateChat_eq_found r fc1 n1 senderId recipientId chat0 hf
    cases hm : r.findMessageByKey chat0.id key with
    | some m =>
      rw [sendMessage_dedupe_hit r r fc1 fm1 n1 senderId recipientId content1 key
        chat0 m hv1 hv2 hv3 hfoc hkey hm] at h1
      rw [Prod.mk.injEq] at h1
      obtain ⟨hr, hsnd⟩ := h1
      injection hsnd with hm1
      subst hr
      subst hm1
      exact sendMessage_dedupe_hit r r fc2 fm2 n2 senderId recipientId content2 key
        chat0 m hv1 hv2 hcontent2
        (findOrCreateChat_eq_found r fc2 n2 senderId recipientId chat0 hf) hkey hm
    | none =>
      have hnone : (if key ≠ "" then r.findMessageByKey chat0.id key else none) = none := by
        rw [if_pos hkey]
        exact hm
      rw [sendMessage_dedupe_miss r r fc1 fm1 n1 senderId recipientId content1 key
        chat0 hv1 hv2 hv3 hfoc hnone] at h1
      rw [Prod.mk.injEq] at h1
      obtain ⟨hr, hsnd⟩ := h1
      injection hsnd with hm1
      subst hr
      subst hm1
      exact second_send_after_miss r fm1 fc2 fm2 n1 n2 senderId recipientId
        content1 content2 key chat0 hv1 hv2 hcontent2 hkey hf hm
  | none =>
    have hfoc := findOrCreateChat_eq_created r fc1 n1 senderId recipientId hf
    have hid1 : (storedChat fc1 n1
        { id := "", participant1 := senderId, participant2 := recipientId,
          createdAt := 0, updatedAt := 0 }).id = fc1 := by
      rw [storedChat_id]
      simp
    have hfC : (MemoryChatRepository.mk
        (setChat r.chats (storedChat fc1 n1
          { id := "", participant1 := senderId, participant2 := recipientId,
            createdAt := 0, updatedAt := 0 }))
        (setEntry r.messages (storedChat fc1 n1
          { id := "", participant1 := senderId, participant2 := recipientId,
            createdAt := 0, updatedAt := 0 }).id [])).findByParticipants
          senderId recipientId =
        some (storedChat fc1 n1
          { id := "", participant1 := senderId, participant2 := recipientId,
            createdAt := 0, updatedAt := 0 }) := by
      show List.find? (fun c => chatMatches c senderId recipientId)
        (setChat r.chats (storedChat fc1 n1
          { id := "", participant1 := senderId, participant2 := recipientId,
            createdAt := 0, updatedAt := 0 })) = _
      rw [setChat_of_absent _ r.chats (fun c0 hc0 => by rw [hid1]; exact hfresh c0 hc0),
        List.find?_append,
        show List.find? (fun c => chatMatches c senderId recipientId) r.chats =
          none from hf, Option.none_or]
      exact List.find?_cons_of_pos _
        (chatMatches_self_pair senderId recipientId _
          (storedChat_participant1 _ _ _) (storedChat_participant2 _ _ _))
    have hnoneC : (MemoryChatRepository.mk
        (setChat r.chats (storedChat fc1 n1
          { id := "", participant1 := senderId, participant2 := recipientId,
            createdAt := 0, updatedAt := 0 }))
        (setEntry r.messages (storedChat fc1 n1
          { id := "", participant1 := senderId, participant2 := recipientId,
            createdAt := 0, updatedAt := 0 }).id [])).findMessageByKey
          (storedChat fc1 n1
            { id := "", participant1 := senderId, participant2 := recipientId,
              createdAt := 0, updatedAt := 0 }).id key = none := by
      rw [findMessageByKey_entry_some _ _ key []
        (getEntry?_setEntry_self r.messages _ [])]
      rfl
    have hnoneC' : (if key ≠ "" then (MemoryChatRepository.mk
        (setChat r.chats (storedChat fc1 n1
          { id := "", participant1 := senderId, participant2 := recipientId,
            createdAt := 0, updatedAt := 0 }))
        (setEntry r.messages (storedChat fc1 n1
          { id := "", participant1 := senderId, participant2 := recipientId,
            createdAt := 0, updatedAt := 0 }).id [])).findMessageByKey
          (storedChat fc1 n1
            { id := "", participant1 := senderId, participant2 := recipientId,
              createdAt := 0, updatedAt := 0 }).id key else none) = none := by
      rw [if_pos hkey]
      exact hnoneC
    rw [sendMessage_dedupe_miss r _ fc1 fm1 n1 senderId recipientId content1 key
      _ hv1 hv2 hv3 hfoc hnoneC'] at h1
    rw [Prod.mk.injEq] at h1
    obtain ⟨hr, hsnd⟩ := h1
    injection hsnd with hm1
    subst hr
    subst hm1
    exact second_send_after_miss _ fm1 fc2 fm2 n1 n2 senderId recipientId
      content1 content2 key _ hv1 hv2 hcontent2 hkey hfC hnoneC

/-- Witness for C1: a concrete first send with key "k" followed by a resend;
the resend returns the same state and the message with the identical id. -/
theorem sendMessage_idempotent_witness :
    ("k" : String) ≠ "" ∧ ("hello again" : String) ≠ "" ∧
    (∀ c ∈ (MemoryChatRepository.empty).chats, c.id ≠ "c1") ∧
    MessageService.sendMessage MemoryChatRepository.empty "c1" "m1" 1 "A" "B" "hi" "k" =
      ({ chats := [{ id := "c1", participant1 := "A", participant2 := "B",
                     createdAt := 1, updatedAt := 1 }],
         messages := [("c1",
           [{ id := "m1", chatId := "c1", senderId := "A", content := "hi",
              status := .sent, timestamp := 1, idempotencyKey := "k" }])] },
       .ok { id := "m1", chatId := "c1", senderId := "A", content := "hi",
             status := .sent, timestamp := 1, idempotencyKey := "k" }) ∧
    MessageService.sendMessage
        { chats := [{ id := "c1", participant1 := "A", participant2 := "B",
                      createdAt := 1, updatedAt := 1 }],
          messages := [("c1",
            [{ id := "m1", chatId := "c1", senderId := "A", content := "hi",
               status := .sent, timestamp := 1, idempotencyKey := "k" }])] }
        "c2" "m2" 9 "A" "B" "hello again" "k" =
      ({ chats := [{ id := "c1", participant1 := "A", participant2 := "B",
                     createdAt := 1, updatedAt := 1 }],
         messages := [("c1",
           [{ id := "m1", chatId := "c1", senderId := "A", content := "hi",
              status := .sent, timestamp := 1, idempotencyKey := "k" }])] },
       .ok { id := "m1", chatId := "c1", senderId := "A", content := "hi",
             status := .sent, timestamp := 1, idempotencyKey := "k" }) := by
  refine ⟨by decide, by decide, (by intro c hc; cases hc), by decide, ?_⟩
  exact sendMessage_idempotent MemoryChatRepository.empty
    { chats := [{ id := "c1", participant1 := "A", participant2 := "B",
                  createdAt := 1, updatedAt := 1 }],
      messages := [("c1",
        [{ id := "m1", chatId := "c1", senderId := "A", content := "hi",
           status := .sent, timestamp := 1, idempotencyKey := "k" }])] }
    "c1" "m1" "c2" "m2" 1 9 "A" "B" "hi" "hello again" "k"
    { id := "m1", chatId := "c1", senderId := "A", content := "hi",
      status := .sent, timestamp := 1, idempotencyKey := "k" }
    (by decide) (by decide) (by intro c hc; cases hc) (by decide)

/-! ### Claim C5: find-or-create-chat is symmetric in its arguments -/

/-- The chats of the store whose unordered participant pair is {a, b}. -/
def chatsForPair (r : MemoryChatRepository) (a b : String) : List Chat :=
  r.chats.filter (fun c => chatMatches c a b)

theorem chatMatches_comm (c : Chat) (a b : String) :
    chatMatches c a b = chatMatches c b a := by
  simp [chatMatches, Bool.or_comm]

theorem chatMatches_fun_comm (a b : String) :
    (fun c => chatMatches c b a) = (fun c => chatMatches c a b) :=
  funext fun c => (chatMatches_comm c a b).symm

/-- Claim C5: for distinct non-empty user ids, find-or-create-chat is
symmetric: after one call (which leaves exactly one chat for the unordered
pair, given at most one existed), every further call with (a,b) or (b,a)
returns the same chat — same id — and the same state, so no second chat is
ever created for the pair. -/
theorem findOrCreateChat_symm (r rB : MemoryChatRepository)
    (f1 f2 : String) (n1 n2 : Nat) (a b : String) (chat1 : Chat)
    (ha : a ≠ "") (hb : b ≠ "") (hab : a ≠ b)
    (hfresh : ∀ c ∈ r.chats, c.id ≠ f1)
    (hinv : (chatsForPair r a b).length ≤ 1)
    (heq : MessageService.findOrCreateChat r f1 n1 a b = .ok (chat1, rB)) :
    (chatsForPair rB a b).length = 1 ∧
    (∀ (X Y : String), ((X, Y) = (a, b) ∨ (X, Y) = (b, a)) →
      MessageService.findOrCreateChat rB f2 n2 X Y = .ok (chat1, rB)) := by
  cases hf : r.findByParticipants a b with
  | some chat0 =>
    rw [findOrCreateChat_eq_found r f1 n1 a b chat0 hf] at heq
    injection heq with heq2
    rw [Prod.mk.injEq] at heq2
    obtain ⟨h1, h2⟩ := heq2
    rw [← h1, ← h2]
    constructor
    · have hf' : List.find? (fun c => chatMatches c a b) r.chats = some chat0 := hf
      have hmem : chat0 ∈ chatsForPair r a b :=
        List.mem_filter.mpr ⟨List.mem_of_find?_eq_some hf',
          List.find?_some (p := fun c => chatMatches c a b) hf'⟩
      have := List.length_pos_of_mem hmem
      omega
    · intro X Y hXY
      have hfind : r.findByParticipants X Y = some chat0 := by
        rcases hXY with h | h
        · have hX : X = a := congrArg Prod.fst h
          have hY : Y = b := congrArg Prod.snd h
          rw [hX, hY]
          exact hf
        · have hX : X = b := congrArg Prod.fst h
          have hY : Y = a := congrArg Prod.snd h
          rw [hX, hY]
          show List.find? (fun c => chatMatches c b a) r.chats = some chat0
          rw [chatMatches_fun_comm a b]
          exact hf
      exact findOrCreateChat_eq_found r f2 n2 X Y chat0 hfind
  | none =>
    rw [findOrCreateChat_eq_created r f1 n1 a b hf] at heq
    set chatC := storedChat f1 n1
      { id := "", participant1 := a, participant2 := b,
        createdAt := 0, updatedAt := 0 } with hchatC
    injection heq with heq2
    rw [Prod.mk.injEq] at heq2
    obtain ⟨h1, h2⟩ := heq2
    rw [← h1, ← h2]
    have hid1 : chatC.id = f1 := by
      rw [hchatC, storedChat_id]
      simp
    have hsc : setChat r.chats chatC = r.chats ++ [chatC] :=
      setChat_of_absent chatC r.chats (fun c0 hc0 => by rw [hid1]; exact hfresh c0 hc0)
    have hmatch : chatMatches chatC a b = true := by
      rw [hchatC]
      exact chatMatches_self_pair a b _
        (storedChat_participant1 _ _ _) (storedChat_participant2 _ _ _)
    have hfilnil : r.chats.filter (fun c => chatMatches c a b) = [] :=
      List.filter_eq_nil_iff.mpr (List.find?_eq_none.mp hf)
    constructor
    · show ((setChat r.chats chatC).filter (fun c => chatMatches c a b)).length = 1
      rw [hsc, List.filter_append, hfilnil]
      simp [hmatch]
    · intro X Y hXY
      have hfind : (MemoryChatRepository.mk (setChat r.chats chatC)
          (setEntry r.messages chatC.id [])).findByParticipants X Y = some chatC := by
        rcases hXY with h | h
        · have hX : X = a := congrArg Prod.fst h
          have hY : Y = b := congrArg Prod.snd h
          rw [hX, hY]
          show List.find? (fun c => chatMatches c a b) (setChat r.chats chatC) = some chatC
          rw [hsc, List.find?_append,
            show List.find? (fun c => chatMatches c a b) r.chats = none from hf,
            Option.none_or]
          exact List.find?_cons_of_pos _ hmatch
        · have hX : X = b := congrArg Prod.fst h
          have hY : Y = a := congrArg Prod.snd h
          rw [hX, hY]
          show List.find? (fun c => chatMatches c b a) (setChat r.chats chatC) = some chatC
          rw [chatMatches_fun_comm a b, hsc, List.find?_append,
            show List.find? (fun c => chatMatches c a b) r.chats = none from hf,
            Option.none_or]
          exact List.find?_cons_of_pos _ hmatch
      exact findOrCreateChat_eq_found _ f2 n2 X Y chatC hfind

/-- Witness for C5: creating the chat with (A,B) and calling again with
(B,A) yields the same chat id and the same state. -/
theorem findOrCreateChat_symm_witness :
    MessageService.findOrCreateChat MemoryChatRepository.empty "c1" 1 "A" "B" =
      .ok ({ id := "c1", participant1 := "A", participant2 := "B",
             createdAt := 1, updatedAt := 1 },
           { chats := [{ id := "c1", participant1 := "A", participant2 := "B",
                         createdAt := 1, updatedAt := 1 }],
             messages := [("c1", [])] }) ∧
    MessageService.findOrCreateChat
        { chats := [{ id := "c1", participant1 := "A", participant2 := "B",
                      createdAt := 1, updatedAt := 1 }],
          messages := [("c1", [])] } "c9" 5 "B" "A" =
      .ok ({ id := "c1", participant1 := "A", participant2 := "B",
             createdAt := 1, updatedAt := 1 },
           { chats := [{ id := "c1", participant1 := "A", participant2 := "B",
                         createdAt := 1, updatedAt := 1 }],
             messages := [("c1", [])] }) := by
  refine ⟨by decide, ?_⟩
  exact (findOrCreateChat_symm MemoryChatRepository.empty
    { chats := [{ id := "c1", participant1 := "A", participant2 := "B",
                  createdAt := 1, updatedAt := 1 }],
      messages := [("c1", [])] }
    "c1" "c9" 1 5 "A" "B"
    { id := "c1", participant1 := "A", participant2 := "B",
      createdAt := 1, updatedAt := 1 }
    (by decide) (by decide) (by decide) (by intro c hc; cases hc)
    (by decide) (by decide)).2 "B" "A" (Or.inr rfl)

/-! ### Status-preservation lemmas (for the message-status lifecycle) -/

theorem setEntry_of_absent (k : String) (v : List Message) :
    ∀ (es : List (String × List Message)), getEntry? es k = none →
      setEntry es k v = es ++ [(k, v)] := by
  intro es
  induction es with
  | nil => intro _; rfl
  | cons p rest ih =>
    intro h
    have hfind : List.find? (fun (q : String × List Message) => q.1 == k)
        (p :: rest) = none := Option.map_eq_none'.mp h
    have hp : ¬((fun (q : String × List Message) => q.1 == k) p) = true := by
      intro hx
      rw [List.find?_cons_of_pos (p := fun (q : String × List Message) => q.1 == k) _ hx] at hfind
      cases hfind
    rw [List.find?_cons_of_neg (p := fun (q : String × List Message) => q.1 == k) _ hp] at hfind
    show (if p.1 == k then (k, v) :: rest else p :: setEntry rest k v) = _
    rw [if_neg hp, ih (by unfold getEntry?; rw [hfind]; rfl)]
    rfl

theorem findInEntries_append_empty (mid k : String) :
    ∀ (es : List (String × List Message)),
      findInEntries (es ++ [(k, [])]) mid = findInEntries es mid := by
  intro es
  induction es with
  | nil => rfl
  | cons p rest ih =>
    obtain ⟨k0, msgs0⟩ := p
    show (match msgs0.find? (fun m => m.id == mid) with
          | some m => some m
          | none => findInEntries (rest ++ [(k, [])]) mid) =
      (match msgs0.find? (fun m => m.id == mid) with
       | some m => some m
       | none => findInEntries rest mid)
    cases hf : msgs0.find? (fun m => m.id == mid) with
    | some m => rfl
    | none => exact ih

theorem findInEntries_setEntry_append (mid : String) (m' : Message)
    (hne : (m'.id == mid) = false) :
    ∀ (es : List (String × List Message)) (k : String),
      findInEntries (setEntry es k ((getEntry? es k).getD [] ++ [m'])) mid =
        findInEntries es mid := by
  have hm' : List.find? (fun (m : Message) => m.id == mid) [m'] = none := by
    rw [List.find?_cons_of_neg (p := fun (m : Message) => m.id == mid) _ (by simp [hne])]
    rfl
  intro es
  induction es with
  | nil =>
    intro k
    show (match ([] ++ [m']).find? (fun m => m.id == mid) with
          | some m => some m
          | none => findInEntries [] mid) = none
    rw [List.nil_append, hm']
    rfl
  | cons p rest ih =>
    intro k
    obtain ⟨k0, msgs0⟩ := p
    by_cases hk : ((k0, msgs0).1 == k) = true
    · have hge : getEntry? ((k0, msgs0) :: rest) k = some msgs0 := by
        unfold getEntry?
        rw [List.find?_cons_of_pos (p := fun (q : String × List Message) => q.1 == k) _ hk]
        rfl
      rw [hge]
      have hset : setEntry ((k0, msgs0) :: rest) k ((some msgs0).getD [] ++ [m']) =
          (k, msgs0 ++ [m']) :: rest := by
        show (if (k0, msgs0).1 == k then (k, (some msgs0).getD [] ++ [m']) :: rest
              else (k0, msgs0) :: setEntry rest k ((some msgs0).getD [] ++ [m'])) = _
        rw [if_pos hk]
        rfl
      rw [hset]
      show (match (msgs0 ++ [m']).find? (fun m => m.id == mid) with
            | some m => some m
            | none => findInEntries rest mid) =
        (match msgs0.find? (fun m => m.id == mid) with
         | some m => some m
         | none => findInEntries rest mid)
      rw [List.find?_append, hm', Option.or_none]
    · have hge : getEntry? ((k0, msgs0) :: rest) k = getEntry? rest k := by
        unfold getEntry?
        rw [List.find?_cons_of_neg (p := fun (q : String × List Message) => q.1 == k) _ hk]
      rw [hge]
      have hset : setEntry ((k0, msgs0) :: rest) k ((getEntry? rest k).getD [] ++ [m']) =
          (k0, msgs0) :: setEntry rest k ((getEntry? rest k).getD [] ++ [m']) := by
        show (if (k0, msgs0).1 == k then (k, (getEntry? rest k).getD [] ++ [m']) :: rest
              else (k0, msgs0) :: setEntry rest k ((getEntry? rest k).getD [] ++ [m'])) = _
        rw [if_neg hk]
      rw [hset]
      show (match msgs0.find? (fun m => m.id == mid) with
            | some m => some m
            | none => findInEntries (setEntry rest k ((getEntry? rest k).getD [] ++ [m'])) mid) =
        (match msgs0.find? (fun m => m.id == mid) with
         | some m => some m
         | none => findInEntries rest mid)
      cases hf : msgs0.find? (fun m => m.id == mid) with
      | some m => rfl
      | none => exact ih k

theorem setStatusFirst_find_other (mid mid' : String) (st : MessageStatus)
    (hne : mid ≠ mid') :
    ∀ (msgs msgs1 : List Message), setStatusFirst msgs mid' st = some msgs1 →
      msgs1.find? (fun m => m.id == mid) = msgs.find? (fun m => m.id == mid) := by
  intro msgs
  induction msgs with
  | nil => intro msgs1 h; cases h
  | cons m0 rest ih =>
    intro msgs1 h
    by_cases hm : (m0.id == mid') = true
    · rw [show setStatusFirst (m0 :: rest) mid' st =
          some ({ m0 with status := st } :: rest) by
        show (if m0.id == mid' then _ else _) = _
        rw [if_pos hm]] at h
      injection h with h2
      rw [← h2]
      have hid0 : ¬((m0.id == mid) = true) := by
        have : m0.id = mid' := eq_of_beq hm
        simp [this, Ne.symm hne]
      rw [List.find?_cons_of_neg (p := fun (m : Message) => m.id == mid) _ (by simpa using hid0),
        List.find?_cons_of_neg (p := fun (m : Message) => m.id == mid) _ hid0]
    · rw [show setStatusFirst (m0 :: rest) mid' st =
          (setStatusFirst rest mid' st).map (fun rest1 => m0 :: rest1) by
        show (if m0.id == mid' then _ else _) = _
        rw [if_neg hm]] at h
      obtain ⟨rest1, hrest1, hcons⟩ := Option.map_eq_some'.mp h
      rw [← hcons]
      by_cases hid0 : (m0.id == mid) = true
      · rw [List.find?_cons_of_pos (p := fun (m : Message) => m.id == mid) _ hid0,
          List.find?_cons_of_pos (p := fun (m : Message) => m.id == mid) _ hid0]
      · rw [List.find?_cons_of_neg (p := fun (m : Message) => m.id == mid) _ hid0,
          List.find?_cons_of_neg (p := fun (m : Message) => m.id == mid) _ hid0]
        exact ih rest1 hrest1

theorem findInEntries_update_other (mid mid' : String) (st : MessageStatus)
    (hne : mid ≠ mid') :
    ∀ (es es1 : List (String × List Message)),
      updateStatusInEntries es mid' st = some es1 →
      findInEntries es1 mid = findInEntries es mid := by
  intro es
  induction es with
  | nil => intro es1 h; cases h
  | cons p rest ih =>
    intro es1 h
    obtain ⟨k0, msgs0⟩ := p
    cases hs : setStatusFirst msgs0 mid' st with
    | some msgs1 =>
      rw [show updateStatusInEntries ((k0, msgs0) :: rest) mid' st =
          some ((k0, msgs1) :: rest) from by
        show (match setStatusFirst msgs0 mid' st with
              | some msgs1 => some ((k0, msgs1) :: rest)
              | none => (updateStatusInEntries rest mid' st).map
                  (fun rest1 => (k0, msgs0) :: rest1)) = _
        rw [hs]] at h
      injection h with h2
      rw [← h2]
      show (match msgs1.find? (fun m => m.id == mid) with
            | some m => some m
            | none => findInEntries rest mid) =
        (match msgs0.find? (fun m => m.id == mid) with
         | some m => some m
         | none => findInEntries rest mid)
      rw [setStatusFirst_find_other mid mid' st hne msgs0 msgs1 hs]
    | none =>
      rw [show updateStatusInEntries ((k0, msgs0) :: rest) mid' st =
          (updateStatusInEntries rest mid' st).map (fun rest1 => (k0, msgs0) :: rest1) from by
        show (match setStatusFirst msgs0 mid' st with
              | some msgs1 => some ((k0, msgs1) :: rest)
              | none => (updateStatusInEntries rest mid' st).map
                  (fun rest1 => (k0, msgs0) :: rest1)) = _
        rw [hs]] at h
      obtain ⟨rest1, hrest1, hcons⟩ := Option.map_eq_some'.mp h
      rw [← hcons]
      show (match msgs0.find? (fun m => m.id == mid) with
            | some m => some m
            | none => findInEntries rest1 mid) =
        (match msgs0.find? (fun m => m.id == mid) with
         | some m => some m
         | none => findInEntries rest mid)
      cases hf : msgs0.find? (fun m => m.id == mid) with
      | some m => rfl
      | none => exact ih rest1 hrest1

theorem update_ignore_not_sent (r : MemoryChatRepository) (mid' : String)
    (stW : MessageStatus) (hst : stW ≠ .sent) (mid : String) (st : MessageStatus)
    (h : r.statusOf mid = some st) (hne : st ≠ .sent) :
    ∃ st', (match MessageService.updateMessageStatus r mid' stW with
            | .ok r1 => r1
            | .error _ => r).statusOf mid = some st' ∧ st' ≠ .sent := by
  cases hup : updateStatusInEntries r.messages mid' stW with
  | none =>
    have hbad : MessageService.updateMessageStatus r mid' stW = .error .messageNotFound := by
      unfold MessageService.updateMessageStatus MemoryChatRepository.updateMessageStatus
      rw [hup]
    rw [hbad]
    exact ⟨st, h, hne⟩
  | some es1 =>
    have hgood : MessageService.updateMessageStatus r mid' stW =
        .ok { chats := r.chats, messages := es1 } := by
      unfold MessageService.updateMessageStatus MemoryChatRepository.updateMessageStatus
      rw [hup]
    rw [hgood]
    by_cases hmm : mid = mid'
    · rw [← hmm] at hup
      obtain ⟨m, hm, hms⟩ := Option.map_eq_some'.mp h
      obtain ⟨es1', hup', hfind'⟩ := updateStatusInEntries_of_find mid stW r.messages m hm
      have heseq : es1' = es1 := by
        have := hup'.symm.trans hup
        injection this
      rw [heseq] at hfind'
      refine ⟨stW, ?_, hst⟩
      show (findInEntries es1 mid).map (fun m => m.status) = some stW
      rw [hfind']
      rfl
    · refine ⟨st, ?_, hne⟩
      show (findInEntries es1 mid).map (fun m => m.status) = some st
      rw [findInEntries_update_other mid mid' stW hmm r.messages es1 hup]
      exact h

theorem broadcast_not_sent (h : ConnectionHub) (r : MemoryChatRepository)
    (msg : Message) (rid : String) (mid : String) (st : MessageStatus)
    (hmid : r.statusOf mid = some st) (hne : st ≠ .sent) :
    ∃ st', ((h.broadcastMessage r msg rid).2).statusOf mid = some st' ∧ st' ≠ .sent := by
  cases hl : h.lookupClient rid with
  | none =>
    unfold ConnectionHub.broadcastMessage
    rw [hl]
    exact ⟨st, hmid, hne⟩
  | some c =>
    rw [broadcastMessage_eq_some h r msg rid c hl]
    by_cases hlt : c.sendQueue.length < c.sendCap
    · rw [if_pos hlt]
      obtain ⟨st', h', hne'⟩ :=
        update_ignore_not_sent r msg.id .delivered (by decide) mid st hmid hne
      cases hu : MessageService.updateMessageStatus r msg.id .delivered with
      | ok r1 =>
        rw [hu] at h'
        exact ⟨st', h', hne'⟩
      | error e =>
        rw [hu] at h'
        exact ⟨st', h', hne'⟩
    · rw [if_neg hlt]
      exact ⟨st, hmid, hne⟩

theorem inbound_not_sent (c : Client) (r : MemoryChatRepository)
    (f : InboundFrame) (mid : String) (st : MessageStatus)
    (hmid : r.statusOf mid = some st) (hne : st ≠ .sent) :
    ∃ st', (c.handleInboundFrame r f).statusOf mid = some st' ∧ st' ≠ .sent := by
  cases f with
  | malformed => exact ⟨st, hmid, hne⟩
  | frame t mid' =>
    show ∃ st', (if t = "mark_read" then
        match MessageService.updateMessageStatus r mid' .read with
        | .ok r1 => r1
        | .error _ => r
      else r).statusOf mid = some st' ∧ st' ≠ .sent
    by_cases ht : t = "mark_read"
    · rw [if_pos ht]
      exact update_ignore_not_sent r mid' .read (by decide) mid st hmid hne
    · rw [if_neg ht]
      exact ⟨st, hmid, hne⟩

theorem sendMessage_not_sent (r : MemoryChatRepository) (fc fm : String)
    (now : Nat) (a b content key : String) (mid : String) (st : MessageStatus)
    (hfc : getEntry? r.messages fc = none)
    (hfm : findInEntries r.messages fm = none)
    (hmid : r.statusOf mid = some st) (hne : st ≠ .sent) :
    ∃ st', ((MessageService.sendMessage r fc fm now a b content key).1).statusOf mid =
      some st' ∧ st' ≠ .sent := by
  have hfmmid : (fm == mid) = false := by
    rw [beq_eq_false_iff_ne]
    intro hEq
    obtain ⟨m, hm, -⟩ := Option.map_eq_some'.mp hmid
    rw [hEq] at hfm
    rw [hfm] at hm
    cases hm
  by_cases hv1 : a = "" ∨ b = ""
  · rw [(sendMessage_validation r fc fm now a b content key).1 hv1]
    exact ⟨st, hmid, hne⟩
  by_cases hv2 : a = b
  · have hv1' := hv1
    push_neg at hv1'
    rw [(sendMessage_validation r fc fm now a b content key).2.1 hv1'.1 hv1'.2 hv2]
    exact ⟨st, hmid, hne⟩
  by_cases hv3 : content = ""
  · have hv1' := hv1
    push_neg at hv1'
    rw [(sendMessage_validation r fc fm now a b content key).2.2 hv1'.1 hv1'.2 hv2 hv3]
    exact ⟨st, hmid, hne⟩
  cases hf : r.findByParticipants a b with
  | some chat =>
    have hfoc := findOrCreateChat_eq_found r fc now a b chat hf
    cases hsd : (if key ≠ "" then r.findMessageByKey chat.id key else none) with
    | some m =>
      rw [sendMessage_after_chat r r fc fm now a b content key chat hv1 hv2 hv3 hfoc, hsd]
      exact ⟨st, hmid, hne⟩
    | none =>
      rw [sendMessage_dedupe_miss r r fc fm now a b content key chat hv1 hv2 hv3 hfoc hsd]
      refine ⟨st, ?_, hne⟩
      have hMid : (storedMessage fm now (newMessage chat.id a content key now)).id = fm := by
        rw [storedMessage_id]
        simp [newMessage]
      show (findInEntries (setEntry r.messages
        (storedMessage fm now (newMessage chat.id a content key now)).chatId
        ((getEntry? r.messages
          (storedMessage fm now (newMessage chat.id a content key now)).chatId).getD [] ++
          [storedMessage fm now (newMessage chat.id a content key now)])) mid).map
        (fun m => m.status) = some st
      rw [findInEntries_setEntry_append mid _ (by rw [hMid]; exact hfmmid) r.messages _]
      exact hmid
  | none =>
    have hfoc := findOrCreateChat_eq_created r fc now a b hf
    have hcid : (storedChat fc now
        { id := "", participant1 := a, participant2 := b,
          createdAt := 0, updatedAt := 0 }).id = fc := by
      rw [storedChat_id]
      simp
    have hrCstat : ∀ mid0, findInEntries (setEntry r.messages (storedChat fc now
        { id := "", participant1 := a, participant2 := b,
          createdAt := 0, updatedAt := 0 }).id []) mid0 =
        findInEntries r.messages mid0 := by
      intro mid0
      rw [hcid, setEntry_of_absent fc [] r.messages hfc, findInEntries_append_empty]
    cases hsd : (if key ≠ "" then (MemoryChatRepository.mk
        (setChat r.chats (storedChat fc now
          { id := "", participant1 := a, participant2 := b,
            createdAt := 0, updatedAt := 0 }))
        (setEntry r.messages (storedChat fc now
          { id := "", participant1 := a, participant2 := b,
            createdAt := 0, updatedAt := 0 }).id [])).findMessageByKey
          (storedChat fc now
            { id := "", participant1 := a, participant2 := b,
              createdAt := 0, updatedAt := 0 }).id key else none) with
    | some m =>
      rw [sendMessage_after_chat r _ fc fm now a b content key _ hv1 hv2 hv3 hfoc, hsd]
      refine ⟨st, ?_, hne⟩
      show (findInEntries (setEntry r.messages (storedChat fc now
        { id := "", participant1 := a, participant2 := b,
          createdAt := 0, updatedAt := 0 }).id []) mid).map
        (fun m => m.status) = some st
      rw [hrCstat]
      exact hmid
    | none =>
      rw [sendMessage_dedupe_miss r _ fc fm now a b content key _ hv1 hv2 hv3 hfoc hsd]
      refine ⟨st, ?_, hne⟩
      have hMid : (storedMessage fm now (newMessage (storedChat fc now
          { id := "", participant1 := a, participant2 := b,
            createdAt := 0, updatedAt := 0 }).id a content key now)).id = fm := by
        rw [storedMessage_id]
        simp [newMessage]
      show (findInEntries (setEntry (setEntry r.messages (storedChat fc now
        { id := "", participant1 := a, participant2 := b,
          createdAt := 0, updatedAt := 0 }).id [])
        (storedMessage fm now (newMessage (storedChat fc now
          { id := "", participant1 := a, participant2 := b,
            createdAt := 0, updatedAt := 0 }).id a content key now)).chatId
        ((getEntry? (setEntry r.messages (storedChat fc now
          { id := "", participant1 := a, participant2 := b,
            createdAt := 0, updatedAt := 0 }).id [])
          (storedMessage fm now (newMessage (storedChat fc now
            { id := "", participant1 := a, participant2 := b,
              createdAt := 0, updatedAt := 0 }).id a content key now)).chatId).getD [] ++
          [storedMessage fm now (newMessage (storedChat fc now
            { id := "", participant1 := a, participant2 := b,
              createdAt := 0, updatedAt := 0 }).id a content key now)])) mid).map
        (fun m => m.status) = some st
      rw [findInEntries_setEntry_append mid _ (by rw [hMid]; exact hfmmid) _ _, hrCstat]
      exact hmid

/-! ### Claim C4: message status lifecycle -/

/-- Side conditions modelling uuid freshness: a send operation draws a chat
uuid that is no existing message-map key and a message uuid that no stored
message carries. Only `send` draws uuids; the other events need nothing. -/
def AppOp.freshFor : AppOp → AppState → Prop
  | .send fc fm _ _ _ _ _, s =>
    getEntry? s.repo.messages fc = none ∧ findInEntries s.repo.messages fm = none
  | _, _ => True

/-- A trace is well-formed when every send operation draws fresh uuids in
the state where it runs. -/
def WFTrace : AppState → List AppOp → Prop
  | _, [] => True
  | s, op :: rest => op.freshFor s ∧ WFTrace (s.step op) rest

theorem step_send_eq (s : AppState) (fc fm : String) (now : Nat)
    (a b content key : String) (r1 : MemoryChatRepository)
    (res : Except AppError Message)
    (hs : MessageService.sendMessage s.repo fc fm now a b content key = (r1, res)) :
    s.step (.send fc fm now a b content key) =
      (match res with
       | .ok m => AppState.mk (s.hub.broadcastMessage r1 m b).1
           (s.hub.broadcastMessage r1 m b).2
       | .error _ => AppState.mk s.hub r1) := by
  cases res with
  | ok m =>
    show (match MessageService.sendMessage s.repo fc fm now a b content key with
          | (r1, Except.ok m) =>
            AppState.mk (s.hub.broadcastMessage r1 m b).1
              (s.hub.broadcastMessage r1 m b).2
          | (r1, Except.error _) => AppState.mk s.hub r1) =
      AppState.mk (s.hub.broadcastMessage r1 m b).1 (s.hub.broadcastMessage r1 m b).2
    rw [hs]
  | error e =>
    show (match MessageService.sendMessage s.repo fc fm now a b content key with
          | (r1, Except.ok m) =>
            AppState.mk (s.hub.broadcastMessage r1 m b).1
              (s.hub.broadcastMessage r1 m b).2
          | (r1, Except.error _) => AppState.mk s.hub r1) =
      AppState.mk s.hub r1
    rw [hs]

theorem step_not_sent (s : AppState) (op : AppOp) (hop : op.freshFor s)
    (mid : String) (st : MessageStatus)
    (hmid : s.repo.statusOf mid = some st) (hne : st ≠ .sent) :
    ∃ st', ((s.step op).repo).statusOf mid = some st' ∧ st' ≠ .sent := by
  cases op with
  | register c => exact ⟨st, hmid, hne⟩
  | unregister c => exact ⟨st, hmid, hne⟩
  | inbound c f => exact inbound_not_sent c s.repo f mid st hmid hne
  | send fc fm now a b content key =>
    obtain ⟨hfc, hfm⟩ := hop
    obtain ⟨st1, h1, hne1⟩ :=
      sendMessage_not_sent s.repo fc fm now a b content key mid st hfc hfm hmid hne
    cases hs : MessageService.sendMessage s.repo fc fm now a b content key with
    | mk r1 res =>
      rw [hs] at h1
      rw [step_send_eq s fc fm now a b content key r1 res hs]
      cases res with
      | ok m => exact broadcast_not_sent s.hub r1 m b mid st1 h1 hne1
      | error e => exact ⟨st1, h1, hne1⟩

/-- Claim C4, amended: under every well-formed sequence of the program's
operations (send-and-broadcast, register, unregister, inbound frames), a
message whose status has left `sent` never returns to `sent` — the program
writes only `delivered` and `read` to existing messages. (The original
forward-only claim fails: a `read` message regresses to `delivered` when an
idempotent resend is re-broadcast, see the counterexample.) -/
theorem message_status_never_back_to_sent (mid : String) :
    ∀ (ops : List AppOp) (s : AppState), WFTrace s ops →
      ∀ st, s.repo.statusOf mid = some st → st ≠ .sent →
      ∃ st', ((s.run ops).repo).statusOf mid = some st' ∧ st' ≠ .sent := by
  intro ops
  induction ops with
  | nil =>
    intro s _ st h hne
    exact ⟨st, h, hne⟩
  | cons op rest ih =>
    intro s hwf st h hne
    obtain ⟨hop, hrest⟩ := hwf
    obtain ⟨st1, h1, hne1⟩ := step_not_sent s op hop mid st h hne
    exact ih (s.step op) hrest st1 h1 hne1

/-- Fixtures for the C4 witness and counterexample. -/
def c4Repo : MemoryChatRepository :=
  { chats := [],
    messages := [("c1",
      [{ id := "m1", chatId := "c1", senderId := "A", content := "hi",
         status := .delivered, timestamp := 1, idempotencyKey := "" }])] }

def c4State : AppState :=
  { hub := { clients := [], closedChans := [] }, repo := c4Repo }

def c4Op : AppOp :=
  .inbound { cid := 1, userId := "B", sendCap := 2, sendQueue := [] }
    (.frame "mark_read" "m1")

/-- Witness for the amended C4: a delivered message stays away from `sent`
across a mark-read frame. -/
theorem message_status_never_back_to_sent_witness :
    WFTrace c4State [c4Op] ∧
    c4Repo.statusOf "m1" = some .delivered ∧
    ∃ st', ((c4State.run [c4Op]).repo).statusOf "m1" = some st' ∧
      st' ≠ MessageStatus.sent := by
  refine ⟨⟨trivial, trivial⟩, by decide, ?_⟩
  exact message_status_never_back_to_sent "m1" [c4Op] c4State
    ⟨trivial, trivial⟩ .delivered (by decide) (by decide)

def c4Client : Client :=
  { cid := 1, userId := "B", sendCap := 4, sendQueue := [] }

def c4Start : AppState :=
  { hub := { clients := [("B", c4Client)], closedChans := [] },
    repo := MemoryChatRepository.empty }

/-- Counterexample to C4 as stated: a concrete program run in which a `read`
message transitions back to `delivered`. User A sends to connected user B
with idempotency key "k" (message m1 delivered), B marks it read; then A
sends again with the same key: the idempotent resend returns the existing
message, the handler re-broadcasts it, the enqueue succeeds, and the status
is overwritten from `read` back to `delivered` — a backward transition. -/
theorem status_forward_only_counterexample :
    ((c4Start.run
        [.send "c1" "m1" 1 "A" "B" "hi" "k",
         .inbound c4Client (.frame "mark_read" "m1")]).repo).statusOf "m1" =
      some .read ∧
    ((c4Start.run
        [.send "c1" "m1" 1 "A" "B" "hi" "k",
         .inbound c4Client (.frame "mark_read" "m1"),
         .send "c2" "m2" 3 "A" "B" "hi" "k"]).repo).statusOf "m1" =
      some .delivered := by
  constructor
  · decide
  · decide

/-! ### Claim C8: the dedupe check and the insert are not atomic -/

/-- Run one thread alone for n atomic steps (`done` absorbs extra steps). -/
def stepN (t : SendThread) : Nat → ThreadPC × MemoryChatRepository →
    ThreadPC × MemoryChatRepository
  | 0, st => st
  | n + 1, st => stepN t n (threadStep t st.1 st.2)

/-- Sequential soundness of the atomic-step machine: a SendMessage call run
to completion without interleaving computes exactly
MessageService.sendMessage — the machine only makes the mutex release
points between repository calls explicit. -/
theorem stepN_eq_sendMessage (t : SendThread) (r : MemoryChatRepository) :
    stepN t 4 (.start, r) =
      (ThreadPC.done (MessageService.sendMessage r t.freshChatId t.freshMsgId
          t.now t.senderId t.recipientId t.content t.idempotencyKey).2,
       (MessageService.sendMessage r t.freshChatId t.freshMsgId
          t.now t.senderId t.recipientId t.content t.idempotencyKey).1) := by
  by_cases hv1 : t.senderId = "" ∨ t.recipientId = ""
  · have e1 : threadStep t .start r = (.done (.error .invalidUser), r) := by
      unfold threadStep
      rw [if_pos hv1]
    show stepN t 3 (threadStep t ThreadPC.start r) = _
    rw [e1, (sendMessage_validation r t.freshChatId t.freshMsgId t.now
      t.senderId t.recipientId t.content t.idempotencyKey).1 hv1]
    rfl
  · by_cases hv2 : t.senderId = t.recipientId
    · have e1 : threadStep t .start r = (.done (.error .cannotMessageSelf), r) := by
        unfold threadStep
        rw [if_neg hv1, if_pos hv2]
      show stepN t 3 (threadStep t ThreadPC.start r) = _
      have hv1' := hv1
      push_neg at hv1'
      rw [e1, (sendMessage_validation r t.freshChatId t.freshMsgId t.now
        t.senderId t.recipientId t.content t.idempotencyKey).2.1 hv1'.1 hv1'.2 hv2]
      rfl
    · by_cases hv3 : t.content = ""
      · have e1 : threadStep t .start r = (.done (.error .emptyMessage), r) := by
          unfold threadStep
          rw [if_neg hv1, if_neg hv2, if_pos hv3]
        show stepN t 3 (threadStep t ThreadPC.start r) = _
        have hv1' := hv1
        push_neg at hv1'
        rw [e1, (sendMessage_validation r t.freshChatId t.freshMsgId t.now
          t.senderId t.recipientId t.content t.idempotencyKey).2.2 hv1'.1 hv1'.2 hv2 hv3]
        rfl
      · cases hf : r.findByParticipants t.senderId t.recipientId with
        | some chat =>
          have e1 : threadStep t .start r = (.dedupe chat, r) := by
            unfold threadStep
            rw [if_neg hv1, if_neg hv2, if_neg hv3, hf]
          have hfoc := findOrCreateChat_eq_found r t.freshChatId t.now
            t.senderId t.recipientId chat hf
          cases hsd : (if t.idempotencyKey ≠ "" then
              r.findMessageByKey chat.id t.idempotencyKey else none) with
          | some m =>
            have e2 : threadStep t (.dedupe chat) r = (.done (.ok m), r) := by
              show (match (if t.idempotencyKey ≠ "" then
                    r.findMessageByKey chat.id t.idempotencyKey else none) with
                  | some existingMsg => ((ThreadPC.done (.ok existingMsg)), r)
                  | none => (ThreadPC.insert chat, r)) = _
              rw [hsd]
            show stepN t 3 (threadStep t ThreadPC.start r) = _
            rw [e1]
            show stepN t 2 (threadStep t (ThreadPC.dedupe chat) r) = _
            rw [e2, sendMessage_after_chat r r t.freshChatId t.freshMsgId t.now
              t.senderId t.recipientId t.content t.idempotencyKey chat
              hv1 hv2 hv3 hfoc, hsd]
            rfl
          | none =>
            have e2 : threadStep t (.dedupe chat) r = (.insert chat, r) := by
              show (match (if t.idempotencyKey ≠ "" then
                    r.findMessageByKey chat.id t.idempotencyKey else none) with
                  | some existingMsg => ((ThreadPC.done (.ok existingMsg)), r)
                  | none => (ThreadPC.insert chat, r)) = _
              rw [hsd]
            have e3 : threadStep t (.insert chat) r =
                (.done (.ok (storedMessage t.freshMsgId t.now
                  (newMessage chat.id t.senderId t.content t.idempotencyKey t.now))),
                 addResultRepo r t.freshMsgId t.now
                  (newMessage chat.id t.senderId t.content t.idempotencyKey t.now)) := by
              show (match r.addMessage t.freshMsgId t.now
                    { id := "", chatId := chat.id, senderId := t.senderId,
                      content := t.content, status := .sent, timestamp := t.now,
                      idempotencyKey := t.idempotencyKey } with
                  | .ok (m, r1) => ((ThreadPC.done (.ok m)), r1)
                  | .error e => ((ThreadPC.done (.error e)), r)) = _
              rw [addMessage_eq]
              rfl
            show stepN t 3 (threadStep t ThreadPC.start r) = _
            rw [e1]
            show stepN t 2 (threadStep t (ThreadPC.dedupe chat) r) = _
            rw [e2]
            show stepN t 1 (threadStep t (ThreadPC.insert chat) r) = _
            rw [e3, sendMessage_dedupe_miss r r t.freshChatId t.freshMsgId t.now
              t.senderId t.recipientId t.content t.idempotencyKey chat
              hv1 hv2 hv3 hfoc hsd]
            rfl
        | none =>
          have e1 : threadStep t .start r = (.mkChat, r) := by
            unfold threadStep
            rw [if_neg hv1, if_neg hv2, if_neg hv3, hf]
          have hfoc := findOrCreateChat_eq_created r t.freshChatId t.now
            t.senderId t.recipientId hf
          have hnoneC : (MemoryChatRepository.mk
              (setChat r.chats (storedChat t.freshChatId t.now
                { id := "", participant1 := t.senderId, participant2 := t.recipientId,
                  createdAt := 0, updatedAt := 0 }))
              (setEntry r.messages (storedChat t.freshChatId t.now
                { id := "", participant1 := t.senderId, participant2 := t.recipientId,
                  createdAt := 0, updatedAt := 0 }).id [])).findMessageByKey
              (storedChat t.freshChatId t.now
                { id := "", participant1 := t.senderId, participant2 := t.recipientId,
                  createdAt := 0, updatedAt := 0 }).id t.idempotencyKey = none := by
            rw [findMessageByKey_entry_some _ _ _ []
              (getEntry?_setEntry_self r.messages _ [])]
            rfl
          have hsd : (if t.idempotencyKey ≠ "" then (MemoryChatRepository.mk
              (setChat r.chats (storedChat t.freshChatId t.now
                { id := "", participant1 := t.senderId, participant2 := t.recipientId,
                  createdAt := 0, updatedAt := 0 }))
              (setEntry r.messages (storedChat t.freshChatId t.now
                { id := "", participant1 := t.senderId, participant2 := t.recipientId,
                  createdAt := 0, updatedAt := 0 }).id [])).findMessageByKey
              (storedChat t.freshChatId t.now
                { id := "", participant1 := t.senderId, participant2 := t.recipientId,
                  createdAt := 0, updatedAt := 0 }).id t.idempotencyKey
              else none) = none := by
            by_cases hk : t.idempotencyKey ≠ ""
            · rw [if_pos hk, hnoneC]
            · rw [if_neg hk]
          have e2 : threadStep t .mkChat r =
              (.dedupe (storedChat t.freshChatId t.now
                { id := "", participant1 := t.senderId, participant2 := t.recipientId,
                  createdAt := 0, updatedAt := 0 }),
               MemoryChatRepository.mk
                (setChat r.chats (storedChat t.freshChatId t.now
                  { id := "", participant1 := t.senderId, participant2 := t.recipientId,
                    createdAt := 0, updatedAt := 0 }))
                (setEntry r.messages (storedChat t.freshChatId t.now
                  { id := "", participant1 := t.senderId, participant2 := t.recipientId,
                    createdAt := 0, updatedAt := 0 }).id [])) := rfl
          have e3 : threadStep t (.dedupe (storedChat t.freshChatId t.now
              { id := "", participant1 := t.senderId, participant2 := t.recipientId,
                createdAt := 0, updatedAt := 0 }))
              (MemoryChatRepository.mk
                (setChat r.chats (storedChat t.freshChatId t.now
                  { id := "", participant1 := t.senderId, participant2 := t.recipientId,
                    createdAt := 0, updatedAt := 0 }))
                (setEntry r.messages (storedChat t.freshChatId t.now
                  { id := "", participant1 := t.senderId, participant2 := t.recipientId,
                    createdAt := 0, updatedAt := 0 }).id [])) =
              (.insert (storedChat t.freshChatId t.now
                { id := "", participant1 := t.senderId, participant2 := t.recipientId,
                  createdAt := 0, updatedAt := 0 }),
               MemoryChatRepository.mk
                (setChat r.chats (storedChat t.freshChatId t.now
                  { id := "", participant1 := t.senderId, participant2 := t.recipientId,
                    createdAt := 0, updatedAt := 0 }))
                (setEntry r.messages (storedChat t.freshChatId t.now
                  { id := "", participant1 := t.senderId, participant2 := t.recipientId,
                    createdAt := 0, updatedAt := 0 }).id [])) := by
            show (match (if t.idempotencyKey ≠ "" then (MemoryChatRepository.mk
                  (setChat r.chats (storedChat t.freshChatId t.now
                    { id := "", participant1 := t.senderId, participant2 := t.recipientId,
                      createdAt := 0, updatedAt := 0 }))
                  (setEntry r.messages (storedChat t.freshChatId t.now
                    { id := "", participant1 := t.senderId, participant2 := t.recipientId,
                      createdAt := 0, updatedAt := 0 }).id [])).findMessageByKey
                  (storedChat t.freshChatId t.now
                    { id := "", participant1 := t.senderId, participant2 := t.recipientId,
                      createdAt := 0, updatedAt := 0 }).id t.idempotencyKey
                  else none) with
                | some existingMsg => ((ThreadPC.done (.ok existingMsg)), (MemoryChatRepository.mk
                  (setChat r.chats (storedChat t.freshChatId t.now
                    { id := "", participant1 := t.senderId, participant2 := t.recipientId,
                      createdAt := 0, updatedAt := 0 }))
                  (setEntry r.messages (storedChat t.freshChatId t.now
                    { id := "", participant1 := t.senderId, participant2 := t.recipientId,
                      createdAt := 0, updatedAt := 0 }).id [])))
                | none => (ThreadPC.insert (storedChat t.freshChatId t.now
                    { id := "", participant1 := t.senderId, participant2 := t.recipientId,
                      createdAt := 0, updatedAt := 0 }), (MemoryChatRepository.mk
                  (setChat r.chats (storedChat t.freshChatId t.now
                    { id := "", participant1 := t.senderId, participant2 := t.recipientId,
                      createdAt := 0, updatedAt := 0 }))
                  (setEntry r.messages (storedChat t.freshChatId t.now
                    { id := "", participant1 := t.senderId, participant2 := t.recipientId,
                      createdAt := 0, updatedAt := 0 }).id [])))) = _
            rw [hsd]
          show stepN t 3 (threadStep t ThreadPC.start r) = _
          rw [e1]
          show stepN t 2 (threadStep t ThreadPC.mkChat r) = _
          rw [e2]
          show stepN t 1 (threadStep t (ThreadPC.dedupe _) _) = _
          rw [e3]
          show stepN t 0 (threadStep t (ThreadPC.insert _) _) = _
          rw [show threadStep t (ThreadPC.insert (storedChat t.freshChatId t.now
              { id := "", participant1 := t.senderId, participant2 := t.recipientId,
                createdAt := 0, updatedAt := 0 }))
              (MemoryChatRepository.mk
                (setChat r.chats (storedChat t.freshChatId t.now
                  { id := "", participant1 := t.senderId, participant2 := t.recipientId,
                    createdAt := 0, updatedAt := 0 }))
                (setEntry r.messages (storedChat t.freshChatId t.now
                  { id := "", participant1 := t.senderId, participant2 := t.recipientId,
                    createdAt := 0, updatedAt := 0 }).id [])) =
              (.done (.ok (storedMessage t.freshMsgId t.now
                (newMessage (storedChat t.freshChatId t.now
                  { id := "", participant1 := t.senderId, participant2 := t.recipientId,
                    createdAt := 0, updatedAt := 0 }).id t.senderId t.content
                  t.idempotencyKey t.now))),
               addResultRepo (MemoryChatRepository.mk
                (setChat r.chats (storedChat t.freshChatId t.now
                  { id := "", participant1 := t.senderId, participant2 := t.recipientId,
                    createdAt := 0, updatedAt := 0 }))
                (setEntry r.messages (storedChat t.freshChatId t.now
                  { id := "", participant1 := t.senderId, participant2 := t.recipientId,
                    createdAt := 0, updatedAt := 0 }).id [])) t.freshMsgId t.now
                (newMessage (storedChat t.freshChatId t.now
                  { id := "", participant1 := t.senderId, participant2 := t.recipientId,
                    createdAt := 0, updatedAt := 0 }).id t.senderId t.content
                  t.idempotencyKey t.now)) from by
            show (match (MemoryChatRepository.mk
                  (setChat r.chats (storedChat t.freshChatId t.now
                    { id := "", participant1 := t.senderId, participant2 := t.recipientId,
                      createdAt := 0, updatedAt := 0 }))
                  (setEntry r.messages (storedChat t.freshChatId t.now
                    { id := "", participant1 := t.senderId, participant2 := t.recipientId,
                      createdAt := 0, updatedAt := 0 }).id [])).addMessage t.freshMsgId t.now
                  { id := "", chatId := (storedChat t.freshChatId t.now
                      { id := "", participant1 := t.senderId, participant2 := t.recipientId,
                        createdAt := 0, updatedAt := 0 }).id, senderId := t.senderId,
                    content := t.content, status := .sent, timestamp := t.now,
                    idempotencyKey := t.idempotencyKey } with
                | .ok (m, r1) => ((ThreadPC.done (.ok m)), r1)
                | .error e => ((ThreadPC.done (.error e)),
                  MemoryChatRepository.mk
                    (setChat r.chats (storedChat t.freshChatId t.now
                      { id := "", participant1 := t.senderId, participant2 := t.recipientId,
                        createdAt := 0, updatedAt := 0 }))
                    (setEntry r.messages (storedChat t.freshChatId t.now
                      { id := "", participant1 := t.senderId, participant2 := t.recipientId,
                        createdAt := 0, updatedAt := 0 }).id []))) = _
            rw [addMessage_eq]
            rfl]
          rw [sendMessage_dedupe_miss r _ t.freshChatId t.freshMsgId t.now
            t.senderId t.recipientId t.content t.idempotencyKey _
            hv1 hv2 hv3 hfoc hsd]
          rfl

/-- Fixtures for the dedupe/insert race: the chat for {A, B} already
exists and is empty; two request tasks send "hi" with the same idempotency
key "k" and their own fresh message uuids. -/
def c8Repo : MemoryChatRepository :=
  { chats := [{ id := "chat-1", participant1 := "A", participant2 := "B",
                createdAt := 1, updatedAt := 1 }],
    messages := [("chat-1", [])] }

def c8T1 : SendThread :=
  { senderId := "A", recipientId := "B", content := "hi", idempotencyKey := "k",
    freshChatId := "cX", freshMsgId := "mT1", now := 5 }

def c8T2 : SendThread :=
  { senderId := "A", recipientId := "B", content := "hi", idempotencyKey := "k",
    freshChatId := "cY", freshMsgId := "mT2", now := 6 }

/-- Claim C8 fails on the code: SendMessage runs the idempotency-key dedupe
check (FindMessageByKey, read-locked) and the insert (AddMessage,
write-locked) as two separate critical sections, so the schedule
check₁, check₂, insert₁, insert₂ is possible. Under it both same-key calls
complete successfully with two distinct messages carrying the key "k" in
the same chat — the chat ends with two rows for one idempotency key. -/
theorem idempotency_dedupe_insert_race :
    (runSched c8T1 c8T2 [true, false, true, false, true, false]
        (.start, .start, c8Repo)).1 =
      .done (.ok { id := "mT1", chatId := "chat-1", senderId := "A",
                   content := "hi", status := .sent, timestamp := 5,
                   idempotencyKey := "k" }) ∧
    (runSched c8T1 c8T2 [true, false, true, false, true, false]
        (.start, .start, c8Repo)).2.1 =
      .done (.ok { id := "mT2", chatId := "chat-1", senderId := "A",
                   content := "hi", status := .sent, timestamp := 6,
                   idempotencyKey := "k" }) ∧
    ("mT1" : String) ≠ "mT2" ∧
    getEntry? (runSched c8T1 c8T2 [true, false, true, false, true, false]
        (.start, .start, c8Repo)).2.2.messages "chat-1" =
      some [{ id := "mT1", chatId := "chat-1", senderId := "A", content := "hi",
              status := .sent, timestamp := 5, idempotencyKey := "k" },
            { id := "mT2", chatId := "chat-1", senderId := "A", content := "hi",
              status := .sent, timestamp := 6, idempotencyKey := "k" }] := by
  refine ⟨by decide, by decide, by decide, by decide⟩

/-- Sequential sanity of the race fixtures: each of the two calls run alone
computes exactly MessageService.sendMessage on the same state. -/
theorem c8_threads_sequentially_sound :
    stepN c8T1 4 (.start, c8Repo) =
      (.done (MessageService.sendMessage c8Repo "cX" "mT1" 5 "A" "B" "hi" "k").2,
       (MessageService.sendMessage c8Repo "cX" "mT1" 5 "A" "B" "hi" "k").1) ∧
    stepN c8T2 4 (.start, c8Repo) =
      (.done (MessageService.sendMessage c8Repo "cY" "mT2" 6 "A" "B" "hi" "k").2,
       (MessageService.sendMessage c8Repo "cY" "mT2" 6 "A" "B" "hi" "k").1) :=
  ⟨stepN_eq_sendMessage c8T1 c8Repo, stepN_eq_sendMessage c8T2 c8Repo⟩

end MessagingApp
